import Mathlib

/-!
Verification of the segaos cross-processor kernel and window manager.

This file gives a shallow embedding in Lean 4 of the parts of the
repository that the claims concern:

* the window manager `src/src/sub/wm.c` (window pool, z-order list,
  dirty-rectangle accumulator, hit testing, titles);
* the command/status handshake protocol `src/include/common.h`
  (`main_send_cmd`, `main_wait_done`, `sub_wait_cmd`, `sub_ack`,
  `sub_done`, `sub_error`), modelled as a small-step transition system
  over the shared flag/parameter/result registers;
* the Word-RAM bank-ownership protocol (`main_has_wram`,
  `main_request_swap`, `sub_return_wram`, `sub_has_wram`), with the
  hardware's atomic bank exchange modelled from the spec;
* the Sub-CPU command dispatcher `process_command` in `src/src/sub/sub.c`.

C `int16_t` arithmetic is embedded as `Int` with an explicit wrap to
[-32768, 32767] (`i16`) at every arithmetic site; `uint16_t` register
values are `Nat` reduced mod 65536 where written.  Pointers into the
static window pool are embedded as `Option (Fin 16)` (the pool index;
`none` is the null pointer).  Byte arrays are total functions `Nat → Nat`
so that out-of-bounds writes are statable.
-/

namespace SegaOS

/-- Wrap an integer to C `int16_t` two's-complement range. -/
def i16 (n : Int) : Int := (n + 32768) % 65536 - 32768

/-! ## Geometry (`wm.c` rect helpers, `wm.h` constants) -/

/-- `Rect` from `sega_os.h` / `wm.h`: int16 edges. -/
structure Rect where
  left : Int
  top : Int
  right : Int
  bottom : Int
deriving DecidableEq, Repr

/-- `Point`: int16 coordinates. -/
structure Point where
  x : Int
  y : Int
deriving DecidableEq, Repr

def WM_SCREEN_W : Int := 320
def WM_SCREEN_H : Int := 224
def WM_MENUBAR_H : Int := 20
def WM_MAX_WINDOWS : Nat := 16
def WM_MAX_DIRTY_RECTS : Nat := 32
def WM_TITLE_MAX : Nat := 31

/-- `rect_contains_point` from wm.c (half-open on right/bottom). -/
def rect_contains_point (r : Rect) (pt : Point) : Bool :=
  pt.x ≥ r.left && pt.x < r.right && pt.y ≥ r.top && pt.y < r.bottom

/-- `rect_intersects` from wm.c. -/
def rect_intersects (a b : Rect) : Bool :=
  !(a.right ≤ b.left || a.left ≥ b.right || a.bottom ≤ b.top || a.top ≥ b.bottom)

/-- `rect_union` from wm.c: bounding box. -/
def rect_union (a b : Rect) : Rect :=
  { left := if a.left < b.left then a.left else b.left
    top := if a.top < b.top then a.top else b.top
    right := if a.right > b.right then a.right else b.right
    bottom := if a.bottom > b.bottom then a.bottom else b.bottom }

/-- `rect_clip_to_screen` from wm.c. -/
def rect_clip_to_screen (r : Rect) : Rect :=
  { left := if r.left < 0 then 0 else r.left
    top := if r.top < 0 then 0 else r.top
    right := if r.right > WM_SCREEN_W then WM_SCREEN_W else r.right
    bottom := if r.bottom > WM_SCREEN_H then WM_SCREEN_H else r.bottom }

/-! ## Titles

A C string argument is embedded as the list of bytes before its NUL
terminator; reading index `i` of the string yields byte `i` of the list,
or 0 at or past the end (the terminator).  The 32-byte `title` field of a
window is a total function `Nat → Nat` so that writes outside indices
0–31 are statable facts rather than being ruled out by typing. -/

/-- Byte `i` of a C string (0 at/past the end = NUL terminator). -/
def strByte (t : List Nat) (i : Nat) : Nat := t.getD i 0

/-- Number of bytes before the first NUL of a C string. -/
def cStrLen : List Nat → Nat
  | [] => 0
  | b :: r => if b = 0 then 0 else cStrLen r + 1

/-- The title-copy loop shared by `WM_NewWindow` and `WM_SetTitle`:
`for (i = 0; i < WM_TITLE_MAX && title[i]; i++) dst[i] = title[i];
dst[i] = 0;` starting at index `i`. -/
def copyTitleFrom (dst : Nat → Nat) (t : List Nat) (i : Nat) : Nat → Nat :=
  if i < WM_TITLE_MAX ∧ strByte t i ≠ 0 then
    copyTitleFrom (Function.update dst i (strByte t i)) t (i + 1)
  else
    Function.update dst i 0
termination_by WM_TITLE_MAX - i
decreasing_by
  rename_i h
  simp only [WM_TITLE_MAX] at *
  omega

/-- The full title copy starting at index 0. -/
def copyTitle (dst : Nat → Nat) (t : List Nat) : Nat → Nat :=
  copyTitleFrom dst t 0

/-! ## Window records and window-manager state (`wm.h`) -/

/-- Window flag bits from wm.h. -/
def WF_VISIBLE : Nat := 0x01
def WF_HILITED : Nat := 0x02
def WF_HAS_CLOSE : Nat := 0x04
def WF_HAS_GROW : Nat := 0x08
def WF_MODAL : Nat := 0x10

/-- Window styles from wm.h (numeric values of the C enum). -/
def WM_STYLE_DOCUMENT : Nat := 0
def WM_STYLE_DIALOG : Nat := 1
def WM_STYLE_PLAIN : Nat := 2
def WM_STYLE_SHADOW : Nat := 3
def WM_STYLE_ALERT : Nat := 4

/-- Hit-test part codes (`WindowPart` enum in wm.h). -/
inductive WindowPart where
  | none
  | menubar
  | desktop
  | drag
  | content
  | close
  | grow
  | goaway
deriving DecidableEq, Repr

/-- The `Window` record of wm.h.  The owner-callback pointers
(`drawProc`/`clickProc`/`dragProc`) and `refCon`, and the per-window
dirty sub-rects (documented in wm.h as unused by the kernel), are
external code/data not touched by any modelled kernel operation and are
omitted.  Pool pointers `above`/`below` are pool indices. -/
structure Window where
  id : Fin 16
  style : Nat
  flags : Nat
  frame : Rect
  content : Rect
  titleBar : Rect
  title : Nat → Nat
  above : Option (Fin 16)
  below : Option (Fin 16)

/-- `DirtyRect` from wm.h. -/
structure DirtyRect where
  rect : Rect
  valid : Bool
deriving DecidableEq, Repr

/-- The `WindowManager` global from wm.h.  The pool and the dirty
accumulator are functions (the accumulator indexed by `Nat`, mirroring
the C array indexing discipline; the code only ever touches indices
below `WM_MAX_DIRTY_RECTS`). -/
structure WMState where
  pool : Fin 16 → Window
  poolUsed : Fin 16 → Bool
  windowCount : Nat
  topWindow : Option (Fin 16)
  bottomWindow : Option (Fin 16)
  activeWindow : Option (Fin 16)
  dirtyRects : Nat → DirtyRect
  dirtyCount : Nat
  desktopPattern : Nat
  menuBarDirty : Bool
  cursorPos : Point
  cursorVisible : Bool

def zeroRect : Rect := ⟨0, 0, 0, 0⟩

/-- A pool record after `memset(&wm.pool[i], 0, sizeof(Window))` followed
by `wm.pool[i].id = i` in `pool_alloc`. -/
def zeroWindow (i : Fin 16) : Window :=
  { id := i, style := 0, flags := 0, frame := zeroRect, content := zeroRect
    titleBar := zeroRect, title := fun _ => 0, above := none, below := none }

/-- `WM_Init`: zero everything, then set the defaults. -/
def WM_InitState : WMState :=
  { pool := fun i => zeroWindow i
    poolUsed := fun _ => false
    windowCount := 0
    topWindow := none
    bottomWindow := none
    activeWindow := none
    dirtyRects := fun _ => ⟨zeroRect, false⟩
    dirtyCount := 0
    desktopPattern := 1
    menuBarDirty := false
    cursorPos := ⟨160, 112⟩
    cursorVisible := true }

/-- Write one pool record (`wm.pool[w] = win`). -/
def setW (s : WMState) (w : Fin 16) (win : Window) : WMState :=
  { s with pool := Function.update s.pool w win }

/-! ## wm.c internal helpers -/

/-- `compute_window_rects`: title-bar and content sub-rects from the
frame, with the plain/shadow override.  Metrics: BORDER_W = 1,
TITLEBAR_H = 18. -/
def compute_window_rects (w : Window) : Window :=
  let tb : Rect :=
    { left := i16 (w.frame.left + 1)
      top := i16 (w.frame.top + 1)
      right := i16 (w.frame.right - 1)
      bottom := i16 (w.frame.top + 1 + 18) }
  let ct : Rect :=
    { left := i16 (w.frame.left + 1)
      top := i16 (tb.bottom + 1)
      right := i16 (w.frame.right - 1)
      bottom := i16 (w.frame.bottom - 1) }
  if w.style = WM_STYLE_PLAIN ∨ w.style = WM_STYLE_SHADOW then
    { w with titleBar := { tb with top := 0, bottom := 0 }
             content := { ct with top := i16 (w.frame.top + 1) } }
  else
    { w with titleBar := tb, content := ct }

/-- First free pool slot, in increasing index order (the `pool_alloc`
scan). -/
def firstFree (used : Fin 16 → Bool) : Option (Fin 16) :=
  (List.finRange 16).find? (fun i => !used i)

/-- `pool_alloc`: returns the allocated index (or `none`) and the updated
state.  On exhaustion the state is untouched. -/
def pool_alloc (s : WMState) : Option (Fin 16) × WMState :=
  match firstFree s.poolUsed with
  | none => (none, s)
  | some i =>
    (some i,
      { s with poolUsed := Function.update s.poolUsed i true
               windowCount := s.windowCount + 1
               pool := Function.update s.pool i (zeroWindow i) })

/-- `pool_free`: mark the slot of `win->id` free and decrement the count
(the C guard `win && win->id < WM_MAX_WINDOWS` always passes for a pool
record). -/
def pool_free (s : WMState) (w : Fin 16) : WMState :=
  { s with poolUsed := Function.update s.poolUsed (s.pool w).id false
           windowCount := s.windowCount - 1 }

/-- `zorder_unlink`, transcribed statement by statement (each register
read is from the state current at that point, as the C pointer reads
are). -/
def zorder_unlink (s : WMState) (w : Fin 16) : WMState :=
  let s1 :=
    match (s.pool w).above with
    | some a => setW s a { s.pool a with below := (s.pool w).below }
    | none => { s with topWindow := (s.pool w).below }
  let s2 :=
    match (s1.pool w).below with
    | some b => setW s1 b { s1.pool b with above := (s1.pool w).above }
    | none => { s1 with bottomWindow := (s1.pool w).above }
  setW s2 w { s2.pool w with above := none, below := none }

/-- `zorder_push_top`. -/
def zorder_push_top (s : WMState) (w : Fin 16) : WMState :=
  let s1 := setW s w { s.pool w with above := none, below := s.topWindow }
  let s2 :=
    match s1.topWindow with
    | some t => setW s1 t { s1.pool t with above := some w }
    | none => s1
  let s3 := { s2 with topWindow := some w }
  if s3.bottomWindow = none then { s3 with bottomWindow := some w } else s3

/-! ## wm.c public API -/

/-- `WM_InvalidateRect` (the argument is a possibly-null `Rect *`).
Clips, drops empty rects, merges into the first intersecting valid
entry, else appends, else (overflow) merges into entry 0. -/
def WM_InvalidateRect (s : WMState) (r? : Option Rect) : WMState :=
  match r? with
  | none => s
  | some r =>
    let clipped := rect_clip_to_screen r
    if clipped.left ≥ clipped.right ∨ clipped.top ≥ clipped.bottom then s
    else
      match (List.range s.dirtyCount).find?
          (fun i => (s.dirtyRects i).valid && rect_intersects (s.dirtyRects i).rect clipped) with
      | some i =>
        let merged : DirtyRect :=
          { s.dirtyRects i with rect := rect_union (s.dirtyRects i).rect clipped }
        { s with dirtyRects := Function.update s.dirtyRects i merged }
      | none =>
        if s.dirtyCount < WM_MAX_DIRTY_RECTS then
          { s with dirtyRects := Function.update s.dirtyRects s.dirtyCount ⟨clipped, true⟩,
                   dirtyCount := s.dirtyCount + 1 }
        else
          let merged : DirtyRect :=
            { s.dirtyRects 0 with rect := rect_union (s.dirtyRects 0).rect clipped }
          { s with dirtyRects := Function.update s.dirtyRects 0 merged }

/-- `WM_InvalidateWindow`. -/
def WM_InvalidateWindow (s : WMState) (w : Fin 16) : WMState :=
  WM_InvalidateRect s (some (s.pool w).frame)

/-- The record contents `WM_NewWindow` stores in the freshly allocated
slot before linking: clipped frame, style, flags with style defaults,
title copy (skipped when the title pointer is null), and the computed
sub-rects. -/
def newWindowRecord (win0 : Window) (bounds : Rect) (title : Option (List Nat))
    (style : Nat) (flags : Nat) : Window :=
  let win1 := { win0 with frame := rect_clip_to_screen bounds
                          style := style, flags := flags }
  let win2 :=
    match title with
    | some t => { win1 with title := copyTitle win1.title t }
    | none => win1
  let win3 := if style = WM_STYLE_DOCUMENT
    then { win2 with flags := win2.flags ||| WF_HAS_CLOSE } else win2
  let win4 := if style = WM_STYLE_DIALOG ∨ style = WM_STYLE_ALERT
    then { win3 with flags := win3.flags ||| WF_MODAL } else win3
  compute_window_rects win4

/-- The tail of `WM_NewWindow` after the record is stored: push to the
z-order top, move the active/highlight state, and invalidate the frame
if the window was requested visible. -/
def newWindowFinish (s2 : WMState) (w : Fin 16) (flags : Nat) : WMState :=
  let s3 := zorder_push_top s2 w
  let s4 :=
    match s3.activeWindow with
    | some a => setW s3 a { s3.pool a with flags := (s3.pool a).flags &&& 0xFD }
    | none => s3
  let s5 := { s4 with activeWindow := some w }
  let s6 := setW s5 w { s5.pool w with flags := (s5.pool w).flags ||| WF_HILITED }
  if flags &&& WF_VISIBLE ≠ 0 then WM_InvalidateWindow s6 w else s6

/-- `WM_NewWindow`.  The title argument is a possibly-null C string. -/
def WM_NewWindow (s : WMState) (bounds : Rect) (title : Option (List Nat))
    (style : Nat) (flags : Nat) : Option (Fin 16) × WMState :=
  match pool_alloc s with
  | (none, s') => (none, s')
  | (some w, s1) =>
    let s2 := setW s1 w (newWindowRecord (s1.pool w) bounds title style flags)
    (some w, newWindowFinish s2 w flags)

/-- `WM_DisposeWindow` on a non-null window pointer. -/
def WM_DisposeWindow (s : WMState) (w : Fin 16) : WMState :=
  let s1 := WM_InvalidateRect s (some (s.pool w).frame)
  let s2 := zorder_unlink s1 w
  let s3 :=
    if s2.activeWindow = some w then
      let s3a := { s2 with activeWindow := s2.topWindow }
      match s3a.activeWindow with
      | some a => setW s3a a { s3a.pool a with flags := (s3a.pool a).flags ||| WF_HILITED }
      | none => s3a
    else s2
  pool_free s3 w

/-- `WM_SelectWindow` on a non-null window pointer. -/
def WM_SelectWindow (s : WMState) (w : Fin 16) : WMState :=
  if s.topWindow = some w then s
  else
    let s1 :=
      match s.activeWindow with
      | some a =>
        let sa := setW s a { s.pool a with flags := (s.pool a).flags &&& 0xFD }
        WM_InvalidateWindow sa a
      | none => s
    let s2 := zorder_unlink s1 w
    let s3 := zorder_push_top s2 w
    let s4 := { s3 with activeWindow := some w }
    let s5 := setW s4 w { s4.pool w with flags := (s4.pool w).flags ||| WF_HILITED }
    WM_InvalidateWindow s5 w

/-- `WM_SendToBack` on a non-null window pointer. -/
def WM_SendToBack (s : WMState) (w : Fin 16) : WMState :=
  if s.bottomWindow = some w then s
  else
    let s1 := zorder_unlink s w
    let s2 := setW s1 w { s1.pool w with below := none, above := s1.bottomWindow }
    let s3 :=
      match s2.bottomWindow with
      | some b => setW s2 b { s2.pool b with below := some w }
      | none => s2
    let s4 := { s3 with bottomWindow := some w }
    let s5 := if s4.topWindow = none then { s4 with topWindow := some w } else s4
    WM_InvalidateRect s5 (some (s5.pool w).frame)

/-- `WM_SetTitle` on a non-null window pointer; a null title string is a
no-op. -/
def WM_SetTitle (s : WMState) (w : Fin 16) (title : Option (List Nat)) : WMState :=
  match title with
  | none => s
  | some t =>
    let s1 := setW s w { s.pool w with title := copyTitle (s.pool w).title t }
    WM_InvalidateRect s1 (some (s1.pool w).titleBar)

/-- The close box computed inside `WM_FindWindow`. -/
def closeBoxOf (win : Window) : Rect :=
  let l := i16 (win.titleBar.left + 4)
  let t := i16 (win.titleBar.top + 3)
  { left := l, top := t, right := i16 (l + 12), bottom := i16 (t + 12) }

/-- The grow box computed inside `WM_FindWindow`. -/
def growBoxOf (win : Window) : Rect :=
  let r := i16 (win.frame.right - 1)
  let b := i16 (win.frame.bottom - 1)
  { left := i16 (r - 12), top := i16 (b - 12), right := r, bottom := b }

/-- The front-to-back walk of `WM_FindWindow`.  The C loop follows
`below` pointers; fuel bounds the walk (16 suffices for any state whose
chain is duplicate-free, which the z-order invariant guarantees; on a
corrupted cyclic chain the C code would not terminate). -/
def findLoop (s : WMState) (pt : Point) : Option (Fin 16) → Nat → WindowPart × Option (Fin 16)
  | _, 0 => (.desktop, none)
  | none, _ + 1 => (.desktop, none)
  | some w, fuel + 1 =>
    let win := s.pool w
    if win.flags &&& WF_VISIBLE = 0 then findLoop s pt win.below fuel
    else if rect_contains_point win.frame pt then
      if win.flags &&& WF_HAS_CLOSE ≠ 0 && rect_contains_point win.titleBar pt
          && rect_contains_point (closeBoxOf win) pt then (.close, some w)
      else if win.flags &&& WF_HAS_GROW ≠ 0
          && rect_contains_point (growBoxOf win) pt then (.grow, some w)
      else if rect_contains_point win.titleBar pt then (.drag, some w)
      else if rect_contains_point win.content pt then (.content, some w)
      else (.drag, some w)
    else findLoop s pt win.below fuel

/-- `WM_FindWindow`: menu-bar band first, then the z-order walk. -/
def WM_FindWindow (s : WMState) (pt : Point) : WindowPart × Option (Fin 16) :=
  if pt.y < WM_MENUBAR_H then (.menubar, none)
  else findLoop s pt s.topWindow 16

/-- `WM_GetWindowById`. -/
def WM_GetWindowById (s : WMState) (id : Nat) : Option (Fin 16) :=
  if h : id < 16 then
    if s.poolUsed ⟨id, h⟩ then some ⟨id, h⟩ else none
  else none

/-- `WM_BeginUpdate`. -/
def WM_BeginUpdate (s : WMState) : Nat := s.dirtyCount

/-- `WM_MoveWindow` on a non-null window pointer. -/
def WM_MoveWindow (s : WMState) (w : Fin 16) (x y : Int) : WMState :=
  let oldFrame := (s.pool w).frame
  let dx := i16 (x - oldFrame.left)
  let dy := i16 (y - oldFrame.top)
  let nf : Rect :=
    { left := i16 (oldFrame.left + dx), top := i16 (oldFrame.top + dy)
      right := i16 (oldFrame.right + dx), bottom := i16 (oldFrame.bottom + dy) }
  let s1 := setW s w (compute_window_rects { s.pool w with frame := rect_clip_to_screen nf })
  let s2 := WM_InvalidateRect s1 (some oldFrame)
  WM_InvalidateWindow s2 w

/-- The `WM_EndUpdate` loop body: clear the valid flag of entries 0-31. -/
def clearValid (d : Nat → DirtyRect) (i : Nat) : DirtyRect :=
  if i < WM_MAX_DIRTY_RECTS then { d i with valid := false } else d i

def WM_EndUpdate (s : WMState) : WMState :=
  { s with dirtyRects := clearValid s.dirtyRects,
           dirtyCount := 0,
           menuBarDirty := false }

/-! ## Protocol constants (`common.h`) -/

def CMD_NONE : Nat := 0x00
def CMD_INIT_OS : Nat := 0x02
def CMD_RENDER_FRAME : Nat := 0x10
def CMD_WRAM_SWAP : Nat := 0x11
def CMD_OPEN_WINDOW : Nat := 0x20
def CMD_CLOSE_WINDOW : Nat := 0x21
def CMD_MOVE_WINDOW : Nat := 0x22
def CMD_CD_PLAY : Nat := 0x40
def CMD_MOUSE_EVENT : Nat := 0x60

def STATUS_IDLE : Nat := 0x00
def STATUS_BUSY : Nat := 0x01
def STATUS_DONE : Nat := 0x03
def STATUS_ERROR : Nat := 0xFF

def SUB_STATE_READY : Nat := 2
def SUB_STATE_RENDERING : Nat := 3

/-! ## Sub-CPU dispatcher (`sub.c`)

`process_command` is embedded as a pure function from the command byte,
the parameter registers, the current result registers, the window
manager state and the dispatcher's static locals to the new states, the
result registers, the list of collaborator calls made (blitter, menu
bar, bank release — the excluded external components), and the terminal
status the back side will signal (`STATUS_DONE` for every case of the
switch, `STATUS_ERROR` for the default).

External collaborator state/results enter as parameters: `tracking`
(`MenuBar_IsTracking()`) and `menuSel` (the command id returned by
`MenuBar_HandleMouseUp`).  The application callbacks (`drawProc`,
`clickProc`, `dragProc`) and the app-open calls (`Calc_Open` etc.) are
external code whose effects are outside the model; the calls the
dispatcher itself makes to drawing collaborators are logged as events. -/

/-- Collaborator calls made by the dispatcher. -/
inductive Ev where
  | setClip (r : Rect)
  | resetClip
  | fillPattern (r : Rect)
  | drawWindowFrame (w : Fin 16)
  | drawMenuBar
  | drawDropdown
  | drawCursor (x y : Int)
  | releaseBank
deriving DecidableEq, Repr

/-- The dispatcher's static locals in sub.c. -/
structure SubLocal where
  cursorX : Int
  cursorY : Int
  prevCursorX : Int
  prevCursorY : Int
  dragWindow : Option (Fin 16)
  dragOffsetX : Int
  dragOffsetY : Int
  windowCounter : Nat
deriving DecidableEq, Repr

/-- Initial values of the sub.c statics. -/
def SubLocal.init : SubLocal :=
  { cursorX := 160, cursorY := 112, prevCursorX := 160, prevCursorY := 112
    dragWindow := none, dragOffsetX := 0, dragOffsetY := 0, windowCounter := 0 }

/-- `InputEvent` from input.h. -/
structure InputEvent where
  type : Nat
  buttons : Nat
  x : Int
  y : Int
  dx : Int
  dy : Int
deriving DecidableEq, Repr

def INPUT_EVT_MOUSE_MOVE : Nat := 1
def INPUT_EVT_MOUSE_DOWN : Nat := 2
def INPUT_EVT_MOUSE_UP : Nat := 3
def INPUT_EVT_MOUSE_DRAG : Nat := 4

/-- `Input_DecodeMouseEvent` (input.h): unpack the CMD registers. -/
def Input_DecodeMouseEvent (p : Nat → Nat) : InputEvent :=
  { x := i16 (p 0), y := i16 (p 1)
    type := p 2 / 256 % 256, buttons := p 2 % 256
    dx := i16 (p 3), dy := 0 }

/-- `sub_write_result`: a 16-bit register write. -/
def wrRes (res : Nat → Nat) (i v : Nat) : Nat → Nat :=
  Function.update res i (v % 65536)

/-- The back-to-front window walk inside the render loop (painter's
algorithm over `above` pointers; fuel as in `findLoop`).  The external
`drawProc` content callback is invoked right after each frame draw and
is not modelled. -/
def renderWalk (s : WMState) : Option (Fin 16) → Nat → List Ev
  | none, _ => []
  | some _, 0 => []
  | some w, fuel + 1 =>
    (if (s.pool w).flags &&& WF_VISIBLE ≠ 0 then [Ev.drawWindowFrame w] else [])
      ++ renderWalk s (s.pool w).above fuel

/-- The per-dirty-rect body of the render loop: clip, desktop fill,
painter's walk; invalid entries are skipped. -/
def renderRects (s : WMState) (count : Nat) : List Ev :=
  (List.range count).flatMap fun i =>
    let dr := s.dirtyRects i
    if dr.valid then
      Ev.setClip dr.rect :: Ev.fillPattern dr.rect :: renderWalk s s.bottomWindow 16
    else []

/-- Result record of one `process_command` dispatch. -/
structure CmdResult where
  wm : WMState
  sub : SubLocal
  results : Nat → Nat
  evs : List Ev
  status : Nat

/-- The C string literal `"Untitled"`. -/
def untitledStr : List Nat := [85, 110, 116, 105, 116, 108, 101, 100]

/-- The `"Window NN"` title built by the File > New menu handler. -/
def windowTitle (n : Nat) : List Nat :=
  [87, 105, 110, 100, 111, 119, 32, 48 + n / 10, 48 + n % 10]

/-- The `CMD_MOUSE_EVENT` case of `process_command` (cursor dirty
rectangles, then the event dispatch).  The calls into external app
callbacks (`clickProc`, `dragProc`) and external collaborators
(`MenuBar_Handle*`, `Calc_Open`, `Notepad_Open`, `Paint_Open`) have no
modelled effect on the window-manager state. -/
def mouseEventCase (params : Nat → Nat) (wm : WMState) (sub : SubLocal)
    (tracking : Bool) (menuSel : Nat) : WMState × SubLocal :=
  let evt := Input_DecodeMouseEvent params
  let sub1 := { sub with prevCursorX := sub.cursorX, prevCursorY := sub.cursorY
                         cursorX := evt.x, cursorY := evt.y }
  let dirtyOld : Rect :=
    { left := sub1.prevCursorX, top := sub1.prevCursorY
      right := i16 (sub1.prevCursorX + 11), bottom := i16 (sub1.prevCursorY + 16) }
  let wm1 := WM_InvalidateRect wm (some dirtyOld)
  let dirtyNew : Rect :=
    { left := sub1.cursorX, top := sub1.cursorY
      right := i16 (sub1.cursorX + 11), bottom := i16 (sub1.cursorY + 16) }
  let wm2 := WM_InvalidateRect wm1 (some dirtyNew)
  if evt.type = INPUT_EVT_MOUSE_DOWN then
    let hit := WM_FindWindow wm2 ⟨evt.x, evt.y⟩
    match hit.1, hit.2 with
    | .content, some w => (WM_SelectWindow wm2 w, sub1)
    | .drag, some w =>
      let wm3 := WM_SelectWindow wm2 w
      (wm3,
        { sub1 with dragWindow := some w
                    dragOffsetX := i16 (evt.x - (wm3.pool w).frame.left)
                    dragOffsetY := i16 (evt.y - (wm3.pool w).frame.top) })
    | .close, some w => (WM_DisposeWindow wm2 w, sub1)
    | _, _ => (wm2, sub1)
  else if evt.type = INPUT_EVT_MOUSE_MOVE then
    (wm2, sub1)
  else if evt.type = INPUT_EVT_MOUSE_DRAG then
    if tracking then (wm2, sub1)
    else
      match sub1.dragWindow with
      | some dw =>
        let newX := i16 (evt.x - sub1.dragOffsetX)
        let newY := i16 (evt.y - sub1.dragOffsetY)
        let newY2 := if newY < WM_MENUBAR_H then WM_MENUBAR_H else newY
        (WM_MoveWindow wm2 dw newX newY2, sub1)
      | none => (wm2, sub1)
  else if evt.type = INPUT_EVT_MOUSE_UP then
    let st :=
      if tracking then
        if menuSel ≠ 0 then
          if menuSel = 0x0101 then
            let wc := (sub1.windowCounter + 1) % 256
            let bl : Int := 30 + ((wc * 12) % 120 : Nat)
            let bt : Int := 40 + ((wc * 10) % 80 : Nat)
            let bounds : Rect := { left := bl, top := bt, right := bl + 180, bottom := bt + 120 }
            ((WM_NewWindow wm2 bounds (some (windowTitle wc)) WM_STYLE_DOCUMENT
                (WF_VISIBLE ||| WF_HAS_GROW)).2,
             { sub1 with windowCounter := wc })
          else if menuSel = 0x0103 then
            match wm2.activeWindow with
            | some a => (WM_DisposeWindow wm2 a, sub1)
            | none => (wm2, sub1)
          else (wm2, sub1)
        else (wm2, sub1)
      else (wm2, sub1)
    (st.1, { st.2 with dragWindow := none })
  else (wm2, sub1)

/-- The command bytes that have a case in `process_command`'s switch. -/
def handledCmd (cmd : Nat) : Bool :=
  cmd = CMD_INIT_OS || cmd = CMD_RENDER_FRAME || cmd = CMD_OPEN_WINDOW ||
  cmd = CMD_CLOSE_WINDOW || cmd = CMD_CD_PLAY || cmd = CMD_MOUSE_EVENT ||
  cmd = CMD_WRAM_SWAP

/-- `process_command` from sub.c (everything between `sub_ack()` and the
final `sub_done()`/`sub_error()`; the handshake itself lives in the
transition system below, with `status` the byte the back side will
signal).  `CMD_INIT_OS` re-runs `os_init`, whose effect on the modelled
state is `WM_Init`; its blitter/menu-bar/heap initialisation touches
only external collaborators. -/
def process_command (cmd : Nat) (params : Nat → Nat) (res0 : Nat → Nat)
    (wm : WMState) (sub : SubLocal) (tracking : Bool) (menuSel : Nat) : CmdResult :=
  if cmd = CMD_INIT_OS then
    { wm := WM_InitState, sub := sub, results := res0, evs := [], status := STATUS_DONE }
  else if cmd = CMD_RENDER_FRAME then
    let res1 := wrRes res0 0 SUB_STATE_RENDERING
    let count := WM_BeginUpdate wm
    let res2 := wrRes res1 1 count
    let evs :=
      renderRects wm count
        ++ [Ev.resetClip, Ev.drawMenuBar]
        ++ (if tracking then [Ev.drawDropdown] else [])
        ++ [Ev.drawCursor sub.cursorX sub.cursorY]
        ++ [Ev.releaseBank]
    let wm1 := WM_EndUpdate wm
    { wm := wm1, sub := sub, results := wrRes res2 0 SUB_STATE_READY
      evs := evs, status := STATUS_DONE }
  else if cmd = CMD_OPEN_WINDOW then
    let x := params 0
    let y := params 1
    let w := params 2
    let h := params 3
    let bounds : Rect :=
      { left := i16 x, top := i16 y
        right := i16 ((x + w) % 65536 : Nat), bottom := i16 ((y + h) % 65536 : Nat) }
    let r := WM_NewWindow wm bounds (some untitledStr) WM_STYLE_DOCUMENT WF_VISIBLE
    { wm := r.2, sub := sub
      results := wrRes res0 0 (match r.1 with | some w => w.val | none => 0xFF)
      evs := [], status := STATUS_DONE }
  else if cmd = CMD_CLOSE_WINDOW then
    match WM_GetWindowById wm (params 0 % 256) with
    | some w =>
      { wm := WM_DisposeWindow wm w, sub := sub, results := wrRes res0 0 0
        evs := [], status := STATUS_DONE }
    | none =>
      { wm := wm, sub := sub, results := wrRes res0 0 0xFF
        evs := [], status := STATUS_DONE }
  else if cmd = CMD_CD_PLAY then
    { wm := wm, sub := sub, results := res0, evs := [], status := STATUS_DONE }
  else if cmd = CMD_MOUSE_EVENT then
    let r := mouseEventCase params wm sub tracking menuSel
    { wm := r.1, sub := r.2, results := res0, evs := [], status := STATUS_DONE }
  else if cmd = CMD_WRAM_SWAP then
    { wm := wm, sub := sub, results := res0, evs := [Ev.releaseBank], status := STATUS_DONE }
  else
    { wm := wm, sub := sub, results := res0, evs := [], status := STATUS_ERROR }

/-! ## The command/status handshake as a transition system

Both sides of `common.h` are embedded as one small-step machine over the
shared registers: `cfm` (the front's flag byte, written only by front
steps), `cfs` (the back's status byte, written only by back steps), the
four parameter registers and the eight result registers.  Each constructor
is one atomic action of the C code: one register read that decides a spin
loop, or one register write.  The front may start a new `main_send_cmd`
either from its idle point or — the hypothetical the single-flight claim
quantifies over — right after a send, before calling `main_wait_done`. -/

/-- Front-side program points of `main_send_cmd` / `main_wait_done`. -/
inductive FrontLoc where
  | ready
  /-- inside `main_send_cmd`, spinning on `GA_MAIN_READ_SUB_FLAG() != STATUS_IDLE` -/
  | guard (cmd p0 p1 p2 p3 : Nat)
  /-- guard passed; about to write the four CMD registers -/
  | write (cmd p0 p1 p2 p3 : Nat)
  /-- params written; about to write the flag byte -/
  | flag (cmd : Nat)
  /-- `main_send_cmd` returned -/
  | sent
  /-- inside `main_wait_done`, spinning for DONE or ERROR -/
  | await
  /-- observed terminal status `st`; about to clear the flag -/
  | clear (st : Nat)
  /-- flag cleared; spinning for STATUS_IDLE -/
  | spinIdle (st : Nat)
  /-- `main_wait_done` returned `st` -/
  | finished (st : Nat)
deriving DecidableEq

/-- Back-side program points of `sub_wait_cmd` / `sub_ack` /
`process_command` / `sub_done` / `sub_error`. -/
inductive BackLoc where
  /-- spinning in `sub_wait_cmd` -/
  | wait
  /-- read a non-zero command byte -/
  | got (cmd : Nat)
  /-- `sub_ack()` done (STATUS_BUSY posted); processing -/
  | busy (cmd : Nat)
  /-- terminal status posted; spinning for `CFM == CMD_NONE` -/
  | waitClear
deriving DecidableEq

/-- The whole two-processor system. -/
structure Sys where
  cfm : Nat
  cfs : Nat
  params : Nat → Nat
  results : Nat → Nat
  front : FrontLoc
  back : BackLoc
  wm : WMState
  sub : SubLocal
  tracking : Bool
  menuSel : Nat
  evs : List Ev

/-- Write the four CMD registers (`main_send_cmd`'s parameter phase). -/
def writeParams (p : Nat → Nat) (p0 p1 p2 p3 : Nat) : Nat → Nat :=
  Function.update (Function.update (Function.update (Function.update p
    0 (p0 % 65536)) 1 (p1 % 65536)) 2 (p2 % 65536)) 3 (p3 % 65536)

/-- One atomic action of either processor. -/
inductive Step : Sys → Sys → Prop where
  /-- the front starts `main_send_cmd(c, p0..p3)` from its idle point -/
  | startSend (s : Sys) (c p0 p1 p2 p3 : Nat) (hc : c ≠ 0) (hlt : c < 256)
      (hf : s.front = .ready) :
      Step s { s with front := .guard c p0 p1 p2 p3 }
  /-- the hypothetical second `main_send_cmd` issued before `main_wait_done` -/
  | secondSend (s : Sys) (c p0 p1 p2 p3 : Nat) (hc : c ≠ 0) (hlt : c < 256)
      (hf : s.front = .sent) :
      Step s { s with front := .guard c p0 p1 p2 p3 }
  /-- the send guard observes `STATUS_IDLE` and falls through -/
  | guardPass (s : Sys) (c p0 p1 p2 p3 : Nat)
      (hf : s.front = .guard c p0 p1 p2 p3) (hs : s.cfs = STATUS_IDLE) :
      Step s { s with front := .write c p0 p1 p2 p3 }
  /-- the four CMD register writes -/
  | writeCmdRegs (s : Sys) (c p0 p1 p2 p3 : Nat)
      (hf : s.front = .write c p0 p1 p2 p3) :
      Step s { s with params := writeParams s.params p0 p1 p2 p3, front := .flag c }
  /-- `GA_MAIN_SET_FLAG(cmd)` -/
  | setFlag (s : Sys) (c : Nat) (hf : s.front = .flag c) :
      Step s { s with cfm := c, front := .sent }
  /-- the front calls `main_wait_done()` -/
  | callWaitDone (s : Sys) (hf : s.front = .sent) :
      Step s { s with front := .await }
  /-- `main_wait_done`'s first spin observes DONE or ERROR -/
  | observeDone (s : Sys) (hf : s.front = .await)
      (hs : s.cfs = STATUS_DONE ∨ s.cfs = STATUS_ERROR) :
      Step s { s with front := .clear s.cfs }
  /-- `GA_MAIN_SET_FLAG(CMD_NONE)` -/
  | clearFlag (s : Sys) (st : Nat) (hf : s.front = .clear st) :
      Step s { s with cfm := 0, front := .spinIdle st }
  /-- `main_wait_done`'s second spin observes `STATUS_IDLE` and returns -/
  | observeIdle (s : Sys) (st : Nat) (hf : s.front = .spinIdle st)
      (hs : s.cfs = STATUS_IDLE) :
      Step s { s with front := .finished st }
  /-- the front's caller consumes the returned status -/
  | loopDone (s : Sys) (st : Nat) (hf : s.front = .finished st) :
      Step s { s with front := .ready }
  /-- `sub_wait_cmd` observes a non-zero flag byte -/
  | readCmd (s : Sys) (hb : s.back = .wait) (hc : s.cfm ≠ 0) :
      Step s { s with back := .got s.cfm }
  /-- `sub_ack()`: post STATUS_BUSY -/
  | ack (s : Sys) (c : Nat) (hb : s.back = .got c) :
      Step s { s with cfs := STATUS_BUSY, back := .busy c }
  /-- the body of `process_command` runs and posts its terminal status
  (`sub_done`'s or `sub_error`'s first flag write) -/
  | processCmd (s : Sys) (c : Nat) (hb : s.back = .busy c) :
      Step s
        (let R := process_command c s.params s.results s.wm s.sub s.tracking s.menuSel
         { s with wm := R.wm, sub := R.sub, results := R.results
                  evs := s.evs ++ R.evs, cfs := R.status, back := .waitClear })
  /-- `sub_done`/`sub_error`'s spin observes `CFM == CMD_NONE` and posts
  `STATUS_IDLE` -/
  | toIdle (s : Sys) (hb : s.back = .waitClear) (hc : s.cfm = 0) :
      Step s { s with cfs := STATUS_IDLE, back := .wait }

/-- Initial system configuration around a given window-manager state and
dispatcher-local state: both flag bytes clear, both sides at their idle
points (the state after `sub_init` posted `STATUS_IDLE`). -/
def mkSys (wm : WMState) (sub : SubLocal) (tracking : Bool) (menuSel : Nat) : Sys :=
  { cfm := 0, cfs := 0, params := fun _ => 0, results := fun _ => 0
    front := .ready, back := .wait, wm := wm, sub := sub
    tracking := tracking, menuSel := menuSel, evs := [] }

/-- Reachability in the handshake machine. -/
def SysReach (s0 s : Sys) : Prop := Relation.ReflTransGen Step s0 s

/-- The boot configuration used by concrete traces. -/
def sys0 : Sys := mkSys WM_InitState SubLocal.init false 0

/-! ## The bank-ownership protocol as a transition system

Software side from `common.h` (part of the repository whose register
writes are masked by the Gate Array): `main_request_swap` sets DMNA and
spins until it clears; `sub_return_wram` sets RET and spins until it
clears; `main_has_wram` reads DMNA = 0, `sub_has_wram` reads RET = 0.

Modelled from the spec: the hardware side of the exchange — the Gate
Array clears a set DMNA/RET bit and atomically exchanges the two
processors' bank assignments ("the hardware — not software — performs
the atomic exchange when the owning side releases"; register table:
"requests bank swap; hardware clears on completion"), and each CPU's
register write can only change its own bit of `GA_MEM_MODE` ("each side
may only write its own flag"). The bank assignment itself is hardware
state with no software-visible register in the code. -/

/-- Program points of `main_request_swap` (resp. `sub_return_wram`):
not in the call, or spinning for the bit to clear. -/
inductive SwapLoc where
  | idle
  | spin
deriving DecidableEq

/-- The two `GA_MEM_MODE` bits, the hardware bank assignment, and the
two processors' positions in their swap calls. -/
structure BankSt where
  dmna : Bool
  ret : Bool
  /-- which physical bank the Main CPU is assigned (hardware state) -/
  mainBank : Bool
  /-- which physical bank the Sub CPU is assigned (hardware state) -/
  subBank : Bool
  mainLoc : SwapLoc
  subLoc : SwapLoc
deriving DecidableEq

/-- `main_has_wram()`: DMNA = 0. -/
def main_has_wram (s : BankSt) : Bool := !s.dmna

/-- `sub_has_wram()`: RET = 0. -/
def sub_has_wram (s : BankSt) : Bool := !s.ret

/-- One atomic action of a processor or of the Gate Array. -/
inductive BankStep : BankSt → BankSt → Prop where
  /-- `main_request_swap` sets DMNA and enters its spin loop -/
  | mainReq (s : BankSt) (h : s.mainLoc = .idle) :
      BankStep s { s with dmna := true, mainLoc := .spin }
  /-- `main_request_swap`'s spin observes DMNA = 0 and returns -/
  | mainDone (s : BankSt) (h : s.mainLoc = .spin) (hd : s.dmna = false) :
      BankStep s { s with mainLoc := .idle }
  /-- `sub_return_wram` sets RET and enters its spin loop -/
  | subRet (s : BankSt) (h : s.subLoc = .idle) :
      BankStep s { s with ret := true, subLoc := .spin }
  /-- `sub_return_wram`'s spin observes RET = 0 and returns -/
  | subDone (s : BankSt) (h : s.subLoc = .spin) (hr : s.ret = false) :
      BankStep s { s with subLoc := .idle }
  /-- Modelled from the spec: the Gate Array completes a DMNA-initiated
  swap — exchanges the bank assignments and clears the bit -/
  | hwSwapDmna (s : BankSt) (h : s.dmna = true) :
      BankStep s { s with mainBank := s.subBank, subBank := s.mainBank, dmna := false }
  /-- Modelled from the spec: the Gate Array completes a RET-initiated
  swap — exchanges the bank assignments and clears the bit -/
  | hwSwapRet (s : BankSt) (h : s.ret = true) :
      BankStep s { s with mainBank := s.subBank, subBank := s.mainBank, ret := false }

/-- Boot state: both bits clear, Main holds bank 0, Sub holds bank 1. -/
def bank0 : BankSt :=
  { dmna := false, ret := false, mainBank := false, subBank := true
    mainLoc := .idle, subLoc := .idle }

/-- Reachability in the bank machine. -/
def BankReach (s : BankSt) : Prop := Relation.ReflTransGen BankStep bank0 s

/-! ## Generic lemmas about the dirty-rect accumulator -/

/-- A clipped rectangle with actual area. -/
def rectNonempty (c : Rect) : Prop := c.left < c.right ∧ c.top < c.bottom

theorem rect_intersects_self {c : Rect} (h : rectNonempty c) :
    rect_intersects c c = true := by
  obtain ⟨h1, h2⟩ := h
  simp only [rect_intersects, Bool.not_eq_true', Bool.or_eq_false_iff,
    decide_eq_false_iff_not, not_le]
  omega

theorem rect_union_self (c : Rect) : rect_union c c = c := by
  simp [rect_union]

/-- The merge-scan predicate of `WM_InvalidateRect`. -/
def mergeScan (s : WMState) (c : Rect) : Option Nat :=
  (List.range s.dirtyCount).find?
    (fun i => (s.dirtyRects i).valid && rect_intersects (s.dirtyRects i).rect c)

/-- Merge the clipped rect into entry `i` (the body of the merge
branch). -/
def mergeEntry (d : Nat → DirtyRect) (i : Nat) (c : Rect) : Nat → DirtyRect :=
  Function.update d i { d i with rect := rect_union (d i).rect c }

/-- Append the clipped rect as a fresh valid entry at index `n`. -/
def addEntry (d : Nat → DirtyRect) (n : Nat) (c : Rect) : Nat → DirtyRect :=
  Function.update d n ⟨c, true⟩

theorem invalidateRect_merge (s : WMState) (r : Rect)
    (hne : rectNonempty (rect_clip_to_screen r)) (i : Nat)
    (hfind : mergeScan s (rect_clip_to_screen r) = some i) :
    WM_InvalidateRect s (some r) =
      { s with dirtyRects := mergeEntry s.dirtyRects i (rect_clip_to_screen r) } := by
  obtain ⟨h1, h2⟩ := hne
  rw [mergeScan] at hfind
  simp only [WM_InvalidateRect, mergeEntry]
  rw [if_neg (by omega), hfind]

theorem invalidateRect_append (s : WMState) (r : Rect)
    (hne : rectNonempty (rect_clip_to_screen r))
    (hfind : mergeScan s (rect_clip_to_screen r) = none)
    (hcap : s.dirtyCount < WM_MAX_DIRTY_RECTS) :
    WM_InvalidateRect s (some r) =
      { s with dirtyRects := addEntry s.dirtyRects s.dirtyCount (rect_clip_to_screen r),
               dirtyCount := s.dirtyCount + 1 } := by
  obtain ⟨h1, h2⟩ := hne
  rw [mergeScan] at hfind
  simp only [WM_InvalidateRect, addEntry]
  rw [if_neg (by omega), hfind, if_pos hcap]

/-- `WM_InvalidateRect` on an empty accumulator appends the clipped rect
as entry 0. -/
theorem invalidateRect_empty (s : WMState) (r : Rect) (h0 : s.dirtyCount = 0)
    (hne : rectNonempty (rect_clip_to_screen r)) :
    WM_InvalidateRect s (some r) =
      { s with dirtyRects := addEntry s.dirtyRects 0 (rect_clip_to_screen r),
               dirtyCount := 1 } := by
  have hfind : mergeScan s (rect_clip_to_screen r) = none := by
    rw [mergeScan, h0]
    rfl
  have h := invalidateRect_append s r hne hfind (by rw [h0]; norm_num [WM_MAX_DIRTY_RECTS])
  rw [h0] at h
  simpa using h

/-! ## C4: hit-test priority -/

/-- The window of claim C4: frame (10,10)-(100,100), document style,
visible with close and grow flags, in an otherwise fresh window
manager. -/
def c4state : WMState :=
  (WM_NewWindow WM_InitState ⟨10, 10, 100, 100⟩ none WM_STYLE_DOCUMENT
    (WF_VISIBLE ||| WF_HAS_CLOSE ||| WF_HAS_GROW)).2

/-- C4 counterexample: the claimed window really has frame
(10,10)-(100,100) and title bar (11,11)-(99,29) with close and grow
flags, and (15,14) is inside its close box — but `WM_FindWindow`
returns `MenuBar` (with no window) for the point (15,14), because the
menu-bar band test (`pt.y < WM_MENUBAR_H`, i.e. y < 20) runs before any
per-window test.  So the claim's `Close` result is false. -/
theorem c4_counterexample :
    (c4state.pool 0).frame = ⟨10, 10, 100, 100⟩ ∧
    (c4state.pool 0).titleBar = ⟨11, 11, 99, 29⟩ ∧
    (c4state.pool 0).flags &&& WF_HAS_CLOSE ≠ 0 ∧
    (c4state.pool 0).flags &&& WF_HAS_GROW ≠ 0 ∧
    (c4state.pool 0).flags &&& WF_VISIBLE ≠ 0 ∧
    rect_contains_point (closeBoxOf (c4state.pool 0)) ⟨15, 14⟩ = true ∧
    WM_FindWindow c4state ⟨15, 14⟩ = (WindowPart.menubar, none) ∧
    WM_FindWindow c4state ⟨15, 14⟩ ≠ (WindowPart.close, some 0) := by
  decide

/-- C4 (amended): with the same window, a point inside the close box
that lies below the menu-bar band — (15,20) — returns `Close` with that
window, not `Drag`; the original point (15,14) lies in the menu-bar band
(y < 20) and returns `MenuBar`. -/
theorem c4_theorem :
    WM_FindWindow c4state ⟨15, 20⟩ = (WindowPart.close, some 0) ∧
    WM_FindWindow c4state ⟨15, 20⟩ ≠ (WindowPart.drag, some 0) ∧
    WM_FindWindow c4state ⟨15, 14⟩ = (WindowPart.menubar, none) := by
  decide

/-! ## C5: dirty-rectangle merge -/

/-- The three rectangles of the C5 counterexample. -/
def c5r1 : Rect := ⟨0, 30, 10, 40⟩
def c5r2 : Rect := ⟨100, 30, 110, 40⟩
def c5r3 : Rect := ⟨0, 30, 110, 40⟩

/-- The accumulator after invalidating r1, r2 (disjoint), then r3
(intersecting both). -/
def c5state : WMState :=
  WM_InvalidateRect (WM_InvalidateRect (WM_InvalidateRect WM_InitState
    (some c5r1)) (some c5r2)) (some c5r3)

/-- The accumulator after invalidating the same non-empty but entirely
off-screen rectangle twice. -/
def c5off : WMState :=
  WM_InvalidateRect (WM_InvalidateRect WM_InitState
    (some ⟨400, 400, 500, 500⟩)) (some ⟨400, 400, 500, 500⟩)

/-- C5 counterexample.  (a) Two disjoint rectangles followed by a third
that intersects both leave TWO accumulator entries, not one: the merge
loop folds the third into the first intersecting entry and returns
without cascading, so entry 0 = r1 ∪ r3 and entry 1 = r2 survives
separately.  (b) Invalidating the same non-empty rectangle twice can
also leave zero entries when the rectangle clips away (it lies
off-screen), not one. -/
theorem c5_counterexample :
    rect_intersects c5r1 c5r2 = false ∧
    rect_intersects c5r1 c5r3 = true ∧
    rect_intersects c5r2 c5r3 = true ∧
    c5state.dirtyCount = 2 ∧
    (c5state.dirtyRects 0).rect = rect_union c5r1 c5r3 ∧
    (c5state.dirtyRects 1).rect = c5r2 ∧
    rectNonempty (⟨400, 400, 500, 500⟩ : Rect) ∧
    c5off.dirtyCount = 0 := by
  refine ⟨by decide, by decide, by decide, by decide, by decide, by decide, ?_, by decide⟩
  constructor <;> decide

/-- C5 (amended): starting from an empty accumulator, invalidating twice
a rectangle whose screen clip is non-empty leaves exactly one entry
(idempotence); invalidating two disjoint rectangles and then a third
intersecting both leaves exactly TWO entries — entry 0 becomes the union
of the first and third (the merge is single-pass, into the first
intersecting entry only) and the second rectangle remains a separate
entry. -/
theorem c5_theorem :
    (∀ (s : WMState) (r : Rect), s.dirtyCount = 0 →
        rectNonempty (rect_clip_to_screen r) →
        (WM_InvalidateRect (WM_InvalidateRect s (some r)) (some r)).dirtyCount = 1 ∧
        ((WM_InvalidateRect (WM_InvalidateRect s (some r)) (some r)).dirtyRects 0).rect
          = rect_clip_to_screen r) ∧
    (∀ (s : WMState) (r1 r2 r3 : Rect), s.dirtyCount = 0 →
        rectNonempty (rect_clip_to_screen r1) →
        rectNonempty (rect_clip_to_screen r2) →
        rectNonempty (rect_clip_to_screen r3) →
        rect_intersects (rect_clip_to_screen r1) (rect_clip_to_screen r2) = false →
        rect_intersects (rect_clip_to_screen r1) (rect_clip_to_screen r3) = true →
        rect_intersects (rect_clip_to_screen r2) (rect_clip_to_screen r3) = true →
        (WM_InvalidateRect (WM_InvalidateRect (WM_InvalidateRect s
            (some r1)) (some r2)) (some r3)).dirtyCount = 2 ∧
        ((WM_InvalidateRect (WM_InvalidateRect (WM_InvalidateRect s
            (some r1)) (some r2)) (some r3)).dirtyRects 0).rect
          = rect_union (rect_clip_to_screen r1) (rect_clip_to_screen r3) ∧
        ((WM_InvalidateRect (WM_InvalidateRect (WM_InvalidateRect s
            (some r1)) (some r2)) (some r3)).dirtyRects 1).rect
          = rect_clip_to_screen r2) := by
  constructor
  · intro s r h0 hne
    rw [invalidateRect_empty s r h0 hne]
    have hfind : mergeScan
        { s with dirtyRects := addEntry s.dirtyRects 0 (rect_clip_to_screen r),
                 dirtyCount := 1 } (rect_clip_to_screen r) = some 0 := by
      simp [mergeScan, addEntry, List.range_succ, rect_intersects_self hne]
    rw [invalidateRect_merge _ r hne 0 hfind]
    simp [mergeEntry, addEntry, rect_union_self]
  · intro s r1 r2 r3 h0 hn1 hn2 hn3 h12 h13 h23
    rw [invalidateRect_empty s r1 h0 hn1]
    -- second invalidate: r2 does not merge with entry 0, appends as entry 1
    have hfind2 : mergeScan
        { s with dirtyRects := addEntry s.dirtyRects 0 (rect_clip_to_screen r1),
                 dirtyCount := 1 } (rect_clip_to_screen r2) = none := by
      simp [mergeScan, addEntry, List.range_succ, h12]
    rw [invalidateRect_append _ r2 hn2 hfind2 (by norm_num [WM_MAX_DIRTY_RECTS])]
    -- third invalidate: r3 merges into entry 0 and stops
    have hfind3 : mergeScan
        { s with dirtyRects := addEntry (addEntry s.dirtyRects 0 (rect_clip_to_screen r1)) 1 (rect_clip_to_screen r2),
                 dirtyCount := 2 } (rect_clip_to_screen r3) = some 0 := by
      simp [mergeScan, addEntry, List.range_succ, h13]
    rw [invalidateRect_merge _ r3 hn3 0 hfind3]
    refine ⟨rfl, ?_, ?_⟩ <;>
      simp [mergeEntry, addEntry, Function.update]

/-- C5 witness: the amended statement applied to the concrete rectangles
(5,30)-(50,60) (idempotent double invalidate) and the r1/r2/r3 triple. -/
theorem c5_witness :
    (WM_InvalidateRect (WM_InvalidateRect WM_InitState
      (some ⟨5, 30, 50, 60⟩)) (some ⟨5, 30, 50, 60⟩)).dirtyCount = 1 ∧
    c5state.dirtyCount = 2 := by
  refine ⟨(c5_theorem.1 WM_InitState ⟨5, 30, 50, 60⟩ rfl ⟨by decide, by decide⟩).1, ?_⟩
  exact (c5_theorem.2 WM_InitState c5r1 c5r2 c5r3 rfl ⟨by decide, by decide⟩
    ⟨by decide, by decide⟩ ⟨by decide, by decide⟩ (by decide) (by decide) (by decide)).1

/-! ## C6: pool exhaustion -/

/-- C6: with every pool slot in use, `WM_NewWindow` returns the null
reference and the entire modelled window-manager state — pool records,
`poolUsed`, `windowCount`, z-order pointers, active window, dirty
accumulator, desktop/cursor state — is returned unchanged
(`pool_alloc`'s scan finds no free slot and `WM_NewWindow` returns
before any mutation). -/
theorem c6_theorem (s : WMState) (bounds : Rect) (title : Option (List Nat))
    (style flags : Nat) (h : ∀ i, s.poolUsed i = true) :
    WM_NewWindow s bounds title style flags = (none, s) := by
  have hff : firstFree s.poolUsed = none := by
    unfold firstFree
    rw [List.find?_eq_none]
    intro i _
    simp [h i]
  unfold WM_NewWindow pool_alloc
  rw [hff]

/-- A window manager whose 16 slots are all marked in use. -/
def c6full : WMState := { WM_InitState with poolUsed := fun _ => true }

/-- C6 witness: the theorem applied at a concrete fully-used pool. -/
theorem c6_witness :
    (∀ i, c6full.poolUsed i = true) ∧
    WM_NewWindow c6full ⟨10, 10, 100, 100⟩ (some untitledStr) WM_STYLE_DOCUMENT
      WF_VISIBLE = (none, c6full) :=
  ⟨fun _ => rfl, c6_theorem c6full ⟨10, 10, 100, 100⟩ (some untitledStr)
    WM_STYLE_DOCUMENT WF_VISIBLE (fun _ => rfl)⟩

/-! ## C8: the window-command opcodes -/

/-- The bounds decoded by the `CMD_OPEN_WINDOW` case from the four
parameter registers (uint16 x, y, w, h; right/bottom computed in uint16
then reinterpreted as int16). -/
def openBounds (params : Nat → Nat) : Rect :=
  { left := i16 (params 0), top := i16 (params 1)
    right := i16 (((params 0 + params 2) % 65536 : Nat) : Int)
    bottom := i16 (((params 1 + params 3) % 65536 : Nat) : Int) }

/-- C8 counterexample: opcode 0x22 (`CMD_MOVE_WINDOW`) has no case in
`process_command`'s switch; at a concrete input the dispatcher takes the
default path and signals `STATUS_ERROR` (0xFF), never `Done`, and the
window-manager state is untouched — contradicting the claim that 0x22
calls a Window Manager operation and completes with `Done`. -/
theorem c8_counterexample :
    (process_command CMD_MOVE_WINDOW (fun _ => 0) (fun _ => 0) WM_InitState
      SubLocal.init false 0).status = STATUS_ERROR ∧
    (process_command CMD_MOVE_WINDOW (fun _ => 0) (fun _ => 0) WM_InitState
      SubLocal.init false 0).status ≠ STATUS_DONE ∧
    (process_command CMD_MOVE_WINDOW (fun _ => 0) (fun _ => 0) WM_InitState
      SubLocal.init false 0).wm = WM_InitState := by
  refine ⟨rfl, by decide, rfl⟩

/-- C8 (amended): opcodes 0x20 (`CMD_OPEN_WINDOW`) and 0x21
(`CMD_CLOSE_WINDOW`) decode the parameter registers, call the
corresponding Window Manager operation (`WM_NewWindow` on the decoded
bounds with the "Untitled" document style; `WM_DisposeWindow` on the
window looked up by id), write a result code to result register 0 (the
new window id or 0xFF; 0 on success or 0xFF if not found), and signal
`Done`.  Opcode 0x22 (`CMD_MOVE_WINDOW`) has no dispatcher case and
reaches the error path instead (window movement happens only through
mouse-drag events). -/
theorem c8_theorem (params res0 : Nat → Nat) (wm : WMState) (sub : SubLocal)
    (tr : Bool) (ms : Nat) :
    ((process_command CMD_OPEN_WINDOW params res0 wm sub tr ms).status = STATUS_DONE ∧
      (process_command CMD_OPEN_WINDOW params res0 wm sub tr ms).wm
        = (WM_NewWindow wm (openBounds params) (some untitledStr)
            WM_STYLE_DOCUMENT WF_VISIBLE).2 ∧
      (process_command CMD_OPEN_WINDOW params res0 wm sub tr ms).results 0
        = (match (WM_NewWindow wm (openBounds params) (some untitledStr)
            WM_STYLE_DOCUMENT WF_VISIBLE).1 with
           | some w => (w : Fin 16).val
           | none => 0xFF)) ∧
    ((process_command CMD_CLOSE_WINDOW params res0 wm sub tr ms).status = STATUS_DONE ∧
      (process_command CMD_CLOSE_WINDOW params res0 wm sub tr ms).wm
        = (match WM_GetWindowById wm (params 0 % 256) with
           | some w => WM_DisposeWindow wm w
           | none => wm) ∧
      (process_command CMD_CLOSE_WINDOW params res0 wm sub tr ms).results 0
        = (match WM_GetWindowById wm (params 0 % 256) with
           | some _ => 0
           | none => 0xFF)) ∧
    (process_command CMD_MOVE_WINDOW params res0 wm sub tr ms).status = STATUS_ERROR := by
  refine ⟨⟨rfl, rfl, ?_⟩, ?_, rfl⟩
  · have hred : (process_command CMD_OPEN_WINDOW params res0 wm sub tr ms).results 0
        = (match (WM_NewWindow wm (openBounds params) (some untitledStr)
            WM_STYLE_DOCUMENT WF_VISIBLE).1 with
           | some w => (w : Fin 16).val
           | none => 0xFF) % 65536 := rfl
    rw [hred]
    rcases (WM_NewWindow wm (openBounds params) (some untitledStr)
        WM_STYLE_DOCUMENT WF_VISIBLE).1 with _ | w
    · rfl
    · exact Nat.mod_eq_of_lt (lt_of_lt_of_le w.isLt (by norm_num))
  · have hred : process_command CMD_CLOSE_WINDOW params res0 wm sub tr ms
        = match WM_GetWindowById wm (params 0 % 256) with
          | some w =>
            { wm := WM_DisposeWindow wm w, sub := sub, results := wrRes res0 0 0
              evs := [], status := STATUS_DONE }
          | none =>
            { wm := wm, sub := sub, results := wrRes res0 0 0xFF
              evs := [], status := STATUS_DONE } := rfl
    rcases h : WM_GetWindowById wm (params 0 % 256) with _ | w <;>
      rw [h] at hred <;> rw [hred] <;> exact ⟨rfl, rfl, rfl⟩

/-! ## C10: title strings are bounded and NUL-terminated -/

theorem strByte_nil (i : Nat) : strByte [] i = 0 := by
  simp [strByte]

theorem strByte_cons_succ (b : Nat) (r : List Nat) (i : Nat) :
    strByte (b :: r) (i + 1) = strByte r i := by
  simp [strByte]

/-- The byte at the first-NUL index is NUL. -/
theorem cStrLen_byte_zero (t : List Nat) : strByte t (cStrLen t) = 0 := by
  induction t with
  | nil => simp [strByte]
  | cons b r ih =>
    by_cases hb : b = 0
    · simp [cStrLen, hb, strByte]
    · simpa [cStrLen, hb, strByte_cons_succ] using ih

/-- Bytes before the first NUL are non-NUL. -/
theorem cStrLen_byte_ne (t : List Nat) : ∀ j, j < cStrLen t → strByte t j ≠ 0 := by
  induction t with
  | nil => intro j hj; simp [cStrLen] at hj
  | cons b r ih =>
    intro j hj
    by_cases hb : b = 0
    · simp [cStrLen, hb] at hj
    · rcases j with _ | j
      · simpa [strByte]
      · rw [strByte_cons_succ]
        exact ih j (by simpa [cStrLen, hb] using hj)

/-- Index of the first NUL at or after position `i`. -/
def firstNul (t : List Nat) (i : Nat) : Nat := i + cStrLen (List.drop i t)

theorem firstNul_zero (t : List Nat) : firstNul t 0 = cStrLen t := by
  simp [firstNul]

theorem firstNul_stop (t : List Nat) (i : Nat) (h : strByte t i = 0) :
    firstNul t i = i := by
  suffices hz : cStrLen (List.drop i t) = 0 by simp [firstNul, hz]
  induction t generalizing i with
  | nil => simp [cStrLen]
  | cons b r ih =>
    rcases i with _ | i
    · simp [cStrLen, show b = 0 from h]
    · rw [strByte_cons_succ] at h
      simpa using ih i h

theorem firstNul_step (t : List Nat) (i : Nat) (h : strByte t i ≠ 0) :
    firstNul t i = firstNul t (i + 1) := by
  suffices hs : cStrLen (List.drop i t) = cStrLen (List.drop (i + 1) t) + 1 by
    simp [firstNul, hs]
    omega
  induction t generalizing i with
  | nil => exact absurd (strByte_nil i) h
  | cons b r ih =>
    rcases i with _ | i
    · simp [cStrLen, show b ≠ 0 from h]
    · rw [strByte_cons_succ] at h
      simpa using ih i h

/-- Full characterisation of the title-copy loop from position `i`:
writing stops at `min 31 (firstNul t i)`, which receives the NUL; the
copied range gets the source bytes; everything below `i` and everything
above the terminator — in particular every index past 31 — is
untouched. -/
theorem copyTitleFrom_spec (t : List Nat) :
    ∀ (n i : Nat), i ≤ 31 → 31 - i ≤ n → ∀ dst : Nat → Nat,
      copyTitleFrom dst t i (min 31 (firstNul t i)) = 0 ∧
      (∀ j, i ≤ j → j < min 31 (firstNul t i) → copyTitleFrom dst t i j = strByte t j) ∧
      (∀ j, j < i → copyTitleFrom dst t i j = dst j) ∧
      (∀ j, min 31 (firstNul t i) < j → copyTitleFrom dst t i j = dst j) := by
  have stop : ∀ (i : Nat) (dst : Nat → Nat), i ≤ 31 → ¬(i < 31 ∧ strByte t i ≠ 0) →
      copyTitleFrom dst t i (min 31 (firstNul t i)) = 0 ∧
      (∀ j, i ≤ j → j < min 31 (firstNul t i) → copyTitleFrom dst t i j = strByte t j) ∧
      (∀ j, j < i → copyTitleFrom dst t i j = dst j) ∧
      (∀ j, min 31 (firstNul t i) < j → copyTitleFrom dst t i j = dst j) := by
    intro i dst hi hcond
    have hk : min 31 (firstNul t i) = i := by
      rcases not_and_or.mp hcond with h31 | hz
      · have : i = 31 := by omega
        subst this
        have : 31 ≤ firstNul t 31 := Nat.le_add_right _ _
        omega
      · rw [firstNul_stop t i (by simpa using hz)]
        omega
    have hv : copyTitleFrom dst t i = Function.update dst i 0 := by
      rw [copyTitleFrom]
      simp only [WM_TITLE_MAX]
      rw [if_neg hcond]
    rw [hk, hv]
    refine ⟨Function.update_same _ _ _, ?_, ?_, ?_⟩
    · intro j hij hji; omega
    · intro j hj; exact Function.update_noteq (by omega) _ _
    · intro j hj; exact Function.update_noteq (by omega) _ _
  intro n
  induction n with
  | zero =>
    intro i hi hni dst
    exact stop i dst hi (by omega)
  | succ n ih =>
    intro i hi hni dst
    by_cases hcond : i < 31 ∧ strByte t i ≠ 0
    · have hstep : copyTitleFrom dst t i
          = copyTitleFrom (Function.update dst i (strByte t i)) t (i + 1) := by
        rw [copyTitleFrom]
        simp only [WM_TITLE_MAX]
        rw [if_pos hcond]
      have hFZ : min 31 (firstNul t i) = min 31 (firstNul t (i + 1)) := by
        rw [firstNul_step t i hcond.2]
      have hk1 : i + 1 ≤ min 31 (firstNul t i) := by
        have h1 : i + 1 ≤ firstNul t (i + 1) := Nat.le_add_right _ _
        omega
      obtain ⟨ih1, ih2, ih3, ih4⟩ :=
        ih (i + 1) (by omega) (by omega) (Function.update dst i (strByte t i))
      rw [hstep, hFZ]
      refine ⟨ih1, ?_, ?_, ?_⟩
      · intro j hij hjk
        rcases Nat.eq_or_lt_of_le hij with hji | hji
        · rw [ih3 j (by omega), ← hji, Function.update_same]
        · exact ih2 j (by omega) hjk
      · intro j hj
        rw [ih3 j (by omega), Function.update_noteq (by omega)]
      · intro j hj
        rw [ih4 j (by omega), Function.update_noteq (by omega)]
    · exact stop i dst hi hcond

/-- A pool write that only changes a record's flags leaves every
window's title untouched. -/
theorem update_flags_title (p : Fin 16 → Window) (a : Fin 16) (f : Nat) (v : Fin 16) :
    (Function.update p a { p a with flags := f } v).title = (p v).title := by
  by_cases hv : v = a
  · subst hv
    simp
  · simp [Function.update_noteq hv]

/-- The z-order push leaves every window's title untouched. -/
theorem zorder_push_top_title (s : WMState) (w v : Fin 16) :
    ((zorder_push_top s w).pool v).title = (s.pool v).title := by
  simp only [zorder_push_top, setW]
  rcases htw : s.topWindow with _ | tw <;>
    simp only [htw] <;>
      split <;>
        · simp only [Function.update_apply]
          split_ifs <;> simp_all

/-- `WM_InvalidateRect` touches only the dirty accumulator. -/
theorem invalidate_frame (s : WMState) (r? : Option Rect) :
    (WM_InvalidateRect s r?).pool = s.pool ∧
    (WM_InvalidateRect s r?).poolUsed = s.poolUsed ∧
    (WM_InvalidateRect s r?).windowCount = s.windowCount ∧
    (WM_InvalidateRect s r?).topWindow = s.topWindow ∧
    (WM_InvalidateRect s r?).bottomWindow = s.bottomWindow ∧
    (WM_InvalidateRect s r?).activeWindow = s.activeWindow := by
  rcases r? with _ | r
  · exact ⟨rfl, rfl, rfl, rfl, rfl, rfl⟩
  · simp only [WM_InvalidateRect]
    split
    · exact ⟨rfl, rfl, rfl, rfl, rfl, rfl⟩
    · split
      · exact ⟨rfl, rfl, rfl, rfl, rfl, rfl⟩
      · split
        · exact ⟨rfl, rfl, rfl, rfl, rfl, rfl⟩
        · exact ⟨rfl, rfl, rfl, rfl, rfl, rfl⟩

/-- `WM_InvalidateRect` leaves the pool unchanged (projection form). -/
theorem invalidateRect_pool (s : WMState) (r? : Option Rect) :
    (WM_InvalidateRect s r?).pool = s.pool := (invalidate_frame s r?).1

/-- The finishing stages of `WM_NewWindow` (z-order push, active/
highlight bookkeeping, invalidate) never change a title. -/
theorem newWindowFinish_title (s2 : WMState) (w : Fin 16) (flags : Nat) (v : Fin 16) :
    ((newWindowFinish s2 w flags).pool v).title = (s2.pool v).title := by
  simp only [newWindowFinish]
  rcases hact : (zorder_push_top s2 w).activeWindow with _ | a <;>
    simp only [hact] <;>
      split <;>
        simp only [WM_InvalidateWindow, invalidateRect_pool, setW,
          Function.update_apply, apply_ite Window.title] <;>
          split_ifs <;>
            simp_all [zorder_push_top_title]

/-- The title stored by `WM_NewWindow` in the new window's record: the
copy into the `memset`-zeroed array (or the zeroed array itself when the
title pointer is null). -/
theorem newWindow_title (s : WMState) (bounds : Rect) (title : Option (List Nat))
    (style flags : Nat) (w : Fin 16) (s' : WMState)
    (h : WM_NewWindow s bounds title style flags = (some w, s')) :
    (s'.pool w).title = Option.elim title (fun _ => 0) (copyTitle (fun _ => 0)) := by
  -- the stored record's title is the copy into the zeroed array
  have hrec : ∀ (i : Fin 16), (newWindowRecord (zeroWindow i) bounds title style flags).title
      = Option.elim title (fun _ => 0) (copyTitle (fun _ => 0)) := by
    intro i
    rcases title with _ | t <;>
      simp only [newWindowRecord, compute_window_rects] <;>
        split_ifs <;> rfl
  rcases hff : firstFree s.poolUsed with _ | i
  · rw [WM_NewWindow] at h
    simp only [pool_alloc, hff] at h
    exact absurd h (by simp [Prod.ext_iff])
  · rw [WM_NewWindow] at h
    simp only [pool_alloc, hff, Prod.mk.injEq] at h
    obtain ⟨hw, hs'⟩ := h
    obtain hw : i = w := by simpa using hw
    subst hw
    rw [← hs', newWindowFinish_title]
    simp [setW, Function.update_apply, hrec i]

/-- C10: titles are always bounded and NUL-terminated.  Writing a title
(of any length) stops at index `k = min 31 (length before the first
NUL)`: index `k` receives the terminating NUL (so the stored string has
at most 31 = `WM_TITLE_MAX` characters, longer inputs truncated),
indices below `k` receive the source bytes (all non-NUL), and every
index above `k` — in particular every index past 31 — is untouched by
the copy.  `WM_SetTitle` stores exactly this copy in the target window
and leaves every other window's title alone; `WM_NewWindow` stores the
copy into the `memset`-zeroed array (all-zero when the title pointer is
null). -/
theorem c10_theorem :
    (∀ (dst : Nat → Nat) (t : List Nat),
        copyTitle dst t (min WM_TITLE_MAX (cStrLen t)) = 0 ∧
        min WM_TITLE_MAX (cStrLen t) ≤ WM_TITLE_MAX ∧
        (∀ j, j < min WM_TITLE_MAX (cStrLen t) →
            copyTitle dst t j = strByte t j ∧ strByte t j ≠ 0) ∧
        (∀ j, min WM_TITLE_MAX (cStrLen t) < j → copyTitle dst t j = dst j)) ∧
    (∀ (s : WMState) (w : Fin 16) (t : List Nat),
        ((WM_SetTitle s w (some t)).pool w).title = copyTitle (s.pool w).title t ∧
        ∀ v, v ≠ w → ((WM_SetTitle s w (some t)).pool v).title = (s.pool v).title) ∧
    (∀ (s : WMState) (bounds : Rect) (title : Option (List Nat)) (style flags : Nat)
        (w : Fin 16) (s' : WMState),
        WM_NewWindow s bounds title style flags = (some w, s') →
        (s'.pool w).title = Option.elim title (fun _ => 0) (copyTitle (fun _ => 0))) := by
  refine ⟨?_, ?_, newWindow_title⟩
  · intro dst t
    have hspec := copyTitleFrom_spec t 31 0 (by omega) (by omega) dst
    rw [firstNul_zero] at hspec
    obtain ⟨h1, h2, _, h4⟩ := hspec
    simp only [WM_TITLE_MAX, copyTitle]
    refine ⟨h1, Nat.min_le_left _ _, ?_, h4⟩
    intro j hj
    exact ⟨h2 j (Nat.zero_le _) hj,
      cStrLen_byte_ne t j (lt_of_lt_of_le hj (Nat.min_le_right _ _))⟩
  · intro s w t
    refine ⟨?_, fun v hv => ?_⟩
    · simp [WM_SetTitle, invalidateRect_pool, setW]
    · simp [WM_SetTitle, invalidateRect_pool, setW, Function.update_noteq hv]

/-- C10 witness: the theorem applied to a 40-byte title (bytes 65) on a
7-filled destination array, and to a concrete `WM_NewWindow` call. -/
theorem c10_witness :
    copyTitle (fun _ => 7) (List.replicate 40 65)
      (min WM_TITLE_MAX (cStrLen (List.replicate 40 65))) = 0 ∧
    (∀ j, min WM_TITLE_MAX (cStrLen (List.replicate 40 65)) < j →
        copyTitle (fun _ => 7) (List.replicate 40 65) j = 7) ∧
    ((WM_NewWindow WM_InitState ⟨0, 0, 50, 50⟩ (some (List.replicate 40 65)) 0 1).2.pool
        0).title = copyTitle (fun _ => 0) (List.replicate 40 65) := by
  refine ⟨(c10_theorem.1 (fun _ => 7) _).1,
    fun j hj => (c10_theorem.1 (fun _ => 7) _).2.2.2 j hj, ?_⟩
  have h : WM_NewWindow WM_InitState ⟨0, 0, 50, 50⟩ (some (List.replicate 40 65)) 0 1
      = (some 0,
         (WM_NewWindow WM_InitState ⟨0, 0, 50, 50⟩ (some (List.replicate 40 65)) 0 1).2) :=
    Prod.ext rfl rfl
  exact c10_theorem.2.2 WM_InitState _ _ 0 1 0 _ h

/-! ## C3: bank-ownership exclusivity -/

/-- The hardware invariant: the two processors are always assigned
different physical banks (the Gate Array only ever exchanges them). -/
theorem bank_assignments_distinct (s : BankSt) (h : BankReach s) :
    s.mainBank ≠ s.subBank := by
  induction h with
  | refl => simp [bank0]
  | tail _ hstep ih =>
    cases hstep with
    | mainReq h => simpa using ih
    | mainDone h hd => simpa using ih
    | subRet h => simpa using ih
    | subDone h hr => simpa using ih
    | hwSwapDmna h => simpa using ih.symm
    | hwSwapRet h => simpa using ih.symm

/-- C3: in every reachable state of the two-processor/Gate-Array model,
it is never the case that `main_has_wram` (DMNA = 0) and `sub_has_wram`
(RET = 0) both hold with both processors assigned the same bank: the
hardware's atomic exchange keeps the two assignments distinct across
every interleaving of `main_request_swap` and `sub_return_wram`. -/
theorem c3_theorem (s : BankSt) (h : BankReach s) (b : Bool) :
    ¬(main_has_wram s = true ∧ s.mainBank = b ∧
      sub_has_wram s = true ∧ s.subBank = b) := by
  rintro ⟨-, hm, -, hs2⟩
  exact bank_assignments_distinct s h (hm.trans hs2.symm)

/-- C3 witness: the theorem applied at the boot state (reachable by the
empty interleaving) and bank 0. -/
theorem c3_witness :
    ¬(main_has_wram bank0 = true ∧ bank0.mainBank = false ∧
      sub_has_wram bank0 = true ∧ bank0.subBank = false) :=
  c3_theorem bank0 Relation.ReflTransGen.refl false

/-! ## Dispatcher status facts -/

/-- Every switch case of `process_command` signals `Done`; only the
default path signals `Error`. -/
theorem process_status (cmd : Nat) (params res0 : Nat → Nat) (wm : WMState)
    (sub : SubLocal) (tr : Bool) (ms : Nat) :
    (process_command cmd params res0 wm sub tr ms).status = STATUS_DONE ∨
    (process_command cmd params res0 wm sub tr ms).status = STATUS_ERROR := by
  unfold process_command
  split_ifs
  all_goals try exact Or.inl rfl
  all_goals try exact Or.inr rfl
  rcases hid : WM_GetWindowById wm (params 0 % 256) with _ | w <;> simp [hid]

/-- An opcode with no case in the switch takes the default path:
state untouched, no collaborator calls, status `Error`. -/
theorem process_unhandled (cmd : Nat) (params res0 : Nat → Nat) (wm : WMState)
    (sub : SubLocal) (tr : Bool) (ms : Nat) (h : handledCmd cmd = false) :
    process_command cmd params res0 wm sub tr ms
      = { wm := wm, sub := sub, results := res0, evs := [], status := STATUS_ERROR } := by
  simp only [handledCmd, Bool.or_eq_false_iff, decide_eq_false_iff_not] at h
  obtain ⟨⟨⟨⟨⟨⟨h1, h2⟩, h3⟩, h4⟩, h5⟩, h6⟩, h7⟩ := h
  unfold process_command
  simp [h1, h2, h3, h4, h5, h6, h7]

/-! ## The handshake status-byte invariant -/

/-- The back side's status byte is determined by its program point:
`Idle` while waiting for or having just read a command, `Busy` while
processing, `Done`/`Error` while waiting for the front flag to clear. -/
def ProtoInv (s : Sys) : Prop :=
  (s.back = .wait → s.cfs = STATUS_IDLE) ∧
  (∀ c, s.back = .got c → s.cfs = STATUS_IDLE) ∧
  (∀ c, s.back = .busy c → s.cfs = STATUS_BUSY) ∧
  (s.back = .waitClear → s.cfs = STATUS_DONE ∨ s.cfs = STATUS_ERROR)

theorem protoInv_reach (wm : WMState) (sub : SubLocal) (tr : Bool) (ms : Nat) :
    ∀ s, SysReach (mkSys wm sub tr ms) s → ProtoInv s := by
  intro s h
  induction h with
  | refl =>
    refine ⟨fun _ => rfl, fun c hh => rfl, fun c hh => ?_, fun hh => ?_⟩ <;>
      simp [mkSys] at hh
  | tail _ hstep ih =>
    cases hstep with
    | startSend c p0 p1 p2 p3 hc hlt hf => exact ih
    | secondSend c p0 p1 p2 p3 hc hlt hf => exact ih
    | guardPass c p0 p1 p2 p3 hf hs => exact ih
    | writeCmdRegs c p0 p1 p2 p3 hf => exact ih
    | setFlag c hf => exact ih
    | callWaitDone hf => exact ih
    | observeDone hf hs => exact ih
    | clearFlag st hf => exact ih
    | observeIdle st hf hs => exact ih
    | loopDone st hf => exact ih
    | readCmd hb hc =>
      exact ⟨fun hh => absurd hh (by simp), fun c hh => ih.1 hb,
        fun c hh => absurd hh (by simp), fun hh => absurd hh (by simp)⟩
    | ack c hb =>
      exact ⟨fun hh => absurd hh (by simp), fun c' hh => absurd hh (by simp),
        fun c' _ => rfl, fun hh => absurd hh (by simp)⟩
    | processCmd c hb =>
      rename_i s' _
      exact ⟨fun hh => absurd hh (by simp), fun c' hh => absurd hh (by simp),
        fun c' hh => absurd hh (by simp),
        fun _ => process_status c s'.params s'.results s'.wm s'.sub s'.tracking s'.menuSel⟩
    | toIdle hb hc =>
      exact ⟨fun _ => rfl, fun c hh => absurd hh (by simp),
        fun c hh => absurd hh (by simp), fun hh => absurd hh (by simp)⟩

/-! ## C1: the command handshake -/

/-- Trace states for the C1 counterexample: the front sends command
0x10 with parameters (1,2,3,4), then — before calling `main_wait_done`
and before the back side has even read the flag — starts a second
`main_send_cmd(0x20, 9,9,9,9)`. -/
def c1sA : Sys := { sys0 with front := .guard 0x10 1 2 3 4 }
def c1sB : Sys := { sys0 with front := .write 0x10 1 2 3 4 }
def c1sC : Sys := { sys0 with params := writeParams sys0.params 1 2 3 4, front := .flag 0x10 }
def c1sD : Sys :=
  { sys0 with params := writeParams sys0.params 1 2 3 4, front := .sent, cfm := 0x10 }
def c1sE : Sys :=
  { sys0 with params := writeParams sys0.params 1 2 3 4, front := .guard 0x20 9 9 9 9,
              cfm := 0x10 }
def c1sF : Sys :=
  { sys0 with params := writeParams sys0.params 1 2 3 4, front := .write 0x20 9 9 9 9,
              cfm := 0x10 }
def c1sG : Sys :=
  { sys0 with params := writeParams (writeParams sys0.params 1 2 3 4) 9 9 9 9,
              front := .flag 0x20, cfm := 0x10 }

/-- C1 counterexample.  In the reachable state `c1sE` a second
`main_send_cmd` has been issued before `main_wait_done`, command 0x10 is
still in flight (`cfm = 0x10`) and the back side has not yet read it
(`back = wait`) — yet the back status byte still reads `Idle` (the back
only posts `Busy` at `sub_ack`, after it reads the flag), so the second
send's guard falls straight through (`Step c1sE c1sF`) and the next step
overwrites the in-flight parameters (param 0 changes from 1 to 9).  The
claimed blocking behaviour is false in the window between writing the
opcode flag and the back side's acknowledgement. -/
theorem c1_counterexample :
    SysReach sys0 c1sF ∧
    c1sE.front = FrontLoc.guard 0x20 9 9 9 9 ∧ c1sE.cfm = 0x10 ∧
    c1sE.back = BackLoc.wait ∧ c1sE.cfs = STATUS_IDLE ∧
    Step c1sE c1sF ∧ Step c1sF c1sG ∧
    c1sF.params 0 = 1 ∧ c1sG.params 0 = 9 ∧ c1sG.params 0 ≠ c1sF.params 0 := by
  have h1 : Step sys0 c1sA := Step.startSend sys0 0x10 1 2 3 4 (by decide) (by decide) rfl
  have h2 : Step c1sA c1sB := Step.guardPass c1sA 0x10 1 2 3 4 rfl rfl
  have h3 : Step c1sB c1sC := Step.writeCmdRegs c1sB 0x10 1 2 3 4 rfl
  have h4 : Step c1sC c1sD := Step.setFlag c1sC 0x10 rfl
  have h5 : Step c1sD c1sE := Step.secondSend c1sD 0x20 9 9 9 9 (by decide) (by decide) rfl
  have h6 : Step c1sE c1sF := Step.guardPass c1sE 0x20 9 9 9 9 rfl rfl
  have h7 : Step c1sF c1sG := Step.writeCmdRegs c1sF 0x20 9 9 9 9 rfl
  exact ⟨(((((Relation.ReflTransGen.refl.tail h1).tail h2).tail h3).tail h4).tail h5).tail h6,
    rfl, rfl, rfl, rfl, h6, h7, by decide, by decide, by decide⟩

/-- C1 (amended).  What the handshake does guarantee:
(1) the only step that writes the parameter registers is the write phase
of `main_send_cmd`;
(2) the write phase is entered only from the guard, by observing
`STATUS_IDLE`;
(3) once the back side has acknowledged (posted `Busy`) and until the
handshake completes, the status byte is never `Idle` — so a second
`main_send_cmd` whose guard runs after the acknowledgement blocks and
cannot overwrite the in-flight parameters;
(4) the back side returns the status byte to `Idle` only from a state
where the front flag has been cleared to `CMD_NONE`.
(The unguarded window of the counterexample — after the opcode flag is
written but before `sub_ack` — remains.) -/
theorem c1_theorem :
    (∀ s s' : Sys, Step s s' → s'.params ≠ s.params →
        ∃ c p0 p1 p2 p3, s.front = FrontLoc.write c p0 p1 p2 p3) ∧
    (∀ (s s' : Sys) (c p0 p1 p2 p3 : Nat), Step s s' →
        s.front = FrontLoc.guard c p0 p1 p2 p3 →
        s'.front = FrontLoc.write c p0 p1 p2 p3 →
        s.cfs = STATUS_IDLE) ∧
    (∀ (wm : WMState) (sub : SubLocal) (tr : Bool) (ms : Nat) (s : Sys),
        SysReach (mkSys wm sub tr ms) s →
        (∀ c, s.back = BackLoc.busy c → s.cfs ≠ STATUS_IDLE) ∧
        (s.back = BackLoc.waitClear → s.cfs ≠ STATUS_IDLE)) ∧
    (∀ s s' : Sys, Step s s' → s.cfs ≠ STATUS_IDLE → s'.cfs = STATUS_IDLE →
        s.cfm = 0) := by
  refine ⟨?_, ?_, ?_, ?_⟩
  · intro s s' hstep hne
    cases hstep <;>
      first
        | exact absurd rfl hne
        | (rename_i c p0 p1 p2 p3 hf; exact ⟨c, p0, p1, p2, p3, hf⟩)
  · intro s s' c p0 p1 p2 p3 hstep h1 h2
    cases hstep <;> simp_all
  · intro wm sub tr ms s h
    have hi := protoInv_reach wm sub tr ms s h
    refine ⟨fun c hb heq => ?_, fun hb heq => ?_⟩
    · exact absurd (heq.symm.trans (hi.2.2.1 c hb)) (by decide)
    · rcases hi.2.2.2 hb with hh | hh <;>
        exact absurd (heq.symm.trans hh) (by decide)
  · intro s s' hstep h1 h2
    cases hstep with
    | startSend c p0 p1 p2 p3 hc hlt hf => exact absurd h2 h1
    | secondSend c p0 p1 p2 p3 hc hlt hf => exact absurd h2 h1
    | guardPass c p0 p1 p2 p3 hf hs => exact absurd h2 h1
    | writeCmdRegs c p0 p1 p2 p3 hf => exact absurd h2 h1
    | setFlag c hf => exact absurd h2 h1
    | callWaitDone hf => exact absurd h2 h1
    | observeDone hf hs => exact absurd h2 h1
    | clearFlag st hf => exact absurd h2 h1
    | observeIdle st hf hs => exact absurd h2 h1
    | loopDone st hf => exact absurd h2 h1
    | readCmd hb hc => exact absurd h2 h1
    | ack c hb => exact absurd (show STATUS_BUSY = STATUS_IDLE from h2) (by decide)
    | processCmd c hb =>
      have h2' : (process_command c s.params s.results s.wm s.sub s.tracking
          s.menuSel).status = STATUS_IDLE := h2
      rcases process_status c s.params s.results s.wm s.sub s.tracking s.menuSel with
        hD | hE
      · exact absurd (hD.symm.trans h2') (by decide)
      · exact absurd (hE.symm.trans h2') (by decide)
    | toIdle hb hc => exact hc

/-- C1 witness: the amended theorem applied at concrete states — the
parameter-writing step of the counterexample trace for parts (1)-(2), a
concrete reachable acknowledged state for part (3), and a concrete
back-to-idle step for part (4). -/
theorem c1_witness :
    (∃ c p0 p1 p2 p3, c1sB.front = FrontLoc.write c p0 p1 p2 p3) ∧
    c1sA.cfs = STATUS_IDLE ∧
    (∀ c, (mkSys WM_InitState SubLocal.init false 0).back = BackLoc.busy c →
      (mkSys WM_InitState SubLocal.init false 0).cfs ≠ STATUS_IDLE) := by
  refine ⟨?_, ?_, ?_⟩
  · exact c1_theorem.1 c1sB c1sC (Step.writeCmdRegs c1sB 0x10 1 2 3 4 rfl)
      (fun hh => absurd (congrFun hh 0) (by decide))
  · exact c1_theorem.2.1 c1sA c1sB 0x10 1 2 3 4 (Step.guardPass c1sA 0x10 1 2 3 4 rfl rfl)
      rfl rfl
  · exact (c1_theorem.2.2.1 WM_InitState SubLocal.init false 0 _
      Relation.ReflTransGen.refl).1

/-! ## A complete handshake trace

For any command byte and parameters, the interleaving
send → read → ack → process → observe → clear → idle drives the system
from idle back to idle, with `main_wait_done` returning exactly the
status the dispatcher posted. -/

/-- The parameter registers after the front writes `p0..p3`. -/
def hsP (p0 p1 p2 p3 : Nat) : Nat → Nat := writeParams (fun _ => 0) p0 p1 p2 p3

/-- The dispatch result of the traced command. -/
def hsR (wm : WMState) (sub : SubLocal) (tr : Bool) (ms : Nat)
    (c p0 p1 p2 p3 : Nat) : CmdResult :=
  process_command c (hsP p0 p1 p2 p3) (fun _ => 0) wm sub tr ms

/-- The system state at the end of the traced handshake. -/
def handshakeEnd (wm : WMState) (sub : SubLocal) (tr : Bool) (ms : Nat)
    (c p0 p1 p2 p3 : Nat) : Sys :=
  { cfm := 0, cfs := STATUS_IDLE, params := hsP p0 p1 p2 p3,
    results := (hsR wm sub tr ms c p0 p1 p2 p3).results,
    front := .finished (hsR wm sub tr ms c p0 p1 p2 p3).status,
    back := .wait,
    wm := (hsR wm sub tr ms c p0 p1 p2 p3).wm,
    sub := (hsR wm sub tr ms c p0 p1 p2 p3).sub,
    tracking := tr, menuSel := ms,
    evs := (hsR wm sub tr ms c p0 p1 p2 p3).evs }

theorem full_handshake (wm : WMState) (sub : SubLocal) (tr : Bool) (ms : Nat)
    (c p0 p1 p2 p3 : Nat) (hc : c ≠ 0) (hlt : c < 256) :
    SysReach (mkSys wm sub tr ms) (handshakeEnd wm sub tr ms c p0 p1 p2 p3) := by
  have hst := process_status c (hsP p0 p1 p2 p3) (fun _ => 0) wm sub tr ms
  have h1 : Step
      (mkSys wm sub tr ms)
      { mkSys wm sub tr ms with front := .guard c p0 p1 p2 p3 }
    := Step.startSend _ c p0 p1 p2 p3 hc hlt rfl
  have h2 : Step
      { mkSys wm sub tr ms with front := .guard c p0 p1 p2 p3 }
      { mkSys wm sub tr ms with front := .write c p0 p1 p2 p3 }
    := Step.guardPass _ c p0 p1 p2 p3 rfl rfl
  have h3 : Step
      { mkSys wm sub tr ms with front := .write c p0 p1 p2 p3 }
      { mkSys wm sub tr ms with params := hsP p0 p1 p2 p3, front := .flag c }
    := Step.writeCmdRegs _ c p0 p1 p2 p3 rfl
  have h4 : Step
      { mkSys wm sub tr ms with params := hsP p0 p1 p2 p3, front := .flag c }
      { mkSys wm sub tr ms with params := hsP p0 p1 p2 p3, cfm := c, front := .sent }
    := Step.setFlag _ c rfl
  have h5 : Step
      { mkSys wm sub tr ms with params := hsP p0 p1 p2 p3, cfm := c, front := .sent }
      { mkSys wm sub tr ms with params := hsP p0 p1 p2 p3, cfm := c, front := .await }
    := Step.callWaitDone _ rfl
  have h6 : Step
      { mkSys wm sub tr ms with params := hsP p0 p1 p2 p3, cfm := c, front := .await }
      { mkSys wm sub tr ms with params := hsP p0 p1 p2 p3, cfm := c, front := .await,
                                back := .got c }
    := Step.readCmd _ rfl hc
  have h7 : Step
      { mkSys wm sub tr ms with params := hsP p0 p1 p2 p3, cfm := c, front := .await,
                                back := .got c }
      { mkSys wm sub tr ms with params := hsP p0 p1 p2 p3, cfm := c, front := .await,
                                cfs := STATUS_BUSY, back := .busy c }
    := Step.ack _ c rfl
  have h8 : Step
      { mkSys wm sub tr ms with params := hsP p0 p1 p2 p3, cfm := c, front := .await,
                                cfs := STATUS_BUSY, back := .busy c }
      { mkSys wm sub tr ms with params := hsP p0 p1 p2 p3, cfm := c, front := .await,
                                cfs := (hsR wm sub tr ms c p0 p1 p2 p3).status,
                                back := .waitClear, wm := (hsR wm sub tr ms c p0 p1 p2 p3).wm,
                                sub := (hsR wm sub tr ms c p0 p1 p2 p3).sub,
                                results := (hsR wm sub tr ms c p0 p1 p2 p3).results,
                                evs := (hsR wm sub tr ms c p0 p1 p2 p3).evs }
    := Step.processCmd _ c rfl
  have h9 : Step
      { mkSys wm sub tr ms with params := hsP p0 p1 p2 p3, cfm := c, front := .await,
                                cfs := (hsR wm sub tr ms c p0 p1 p2 p3).status,
                                back := .waitClear, wm := (hsR wm sub tr ms c p0 p1 p2 p3).wm,
                                sub := (hsR wm sub tr ms c p0 p1 p2 p3).sub,
                                results := (hsR wm sub tr ms c p0 p1 p2 p3).results,
                                evs := (hsR wm sub tr ms c p0 p1 p2 p3).evs }
      { mkSys wm sub tr ms with params := hsP p0 p1 p2 p3, cfm := c,
                                front := .clear (hsR wm sub tr ms c p0 p1 p2 p3).status,
                                cfs := (hsR wm sub tr ms c p0 p1 p2 p3).status,
                                back := .waitClear, wm := (hsR wm sub tr ms c p0 p1 p2 p3).wm,
                                sub := (hsR wm sub tr ms c p0 p1 p2 p3).sub,
                                results := (hsR wm sub tr ms c p0 p1 p2 p3).results,
                                evs := (hsR wm sub tr ms c p0 p1 p2 p3).evs }
    := Step.observeDone _ rfl hst
  have h10 : Step
      { mkSys wm sub tr ms with params := hsP p0 p1 p2 p3, cfm := c,
                                front := .clear (hsR wm sub tr ms c p0 p1 p2 p3).status,
                                cfs := (hsR wm sub tr ms c p0 p1 p2 p3).status,
                                back := .waitClear, wm := (hsR wm sub tr ms c p0 p1 p2 p3).wm,
                                sub := (hsR wm sub tr ms c p0 p1 p2 p3).sub,
                                results := (hsR wm sub tr ms c p0 p1 p2 p3).results,
                                evs := (hsR wm sub tr ms c p0 p1 p2 p3).evs }
      { mkSys wm sub tr ms with params := hsP p0 p1 p2 p3, cfm := 0,
                                front := .spinIdle (hsR wm sub tr ms c p0 p1 p2 p3).status,
                                cfs := (hsR wm sub tr ms c p0 p1 p2 p3).status,
                                back := .waitClear, wm := (hsR wm sub tr ms c p0 p1 p2 p3).wm,
                                sub := (hsR wm sub tr ms c p0 p1 p2 p3).sub,
                                results := (hsR wm sub tr ms c p0 p1 p2 p3).results,
                                evs := (hsR wm sub tr ms c p0 p1 p2 p3).evs }
    := Step.clearFlag _ _ rfl
  have h11 : Step
      { mkSys wm sub tr ms with params := hsP p0 p1 p2 p3, cfm := 0,
                                front := .spinIdle (hsR wm sub tr ms c p0 p1 p2 p3).status,
                                cfs := (hsR wm sub tr ms c p0 p1 p2 p3).status,
                                back := .waitClear, wm := (hsR wm sub tr ms c p0 p1 p2 p3).wm,
                                sub := (hsR wm sub tr ms c p0 p1 p2 p3).sub,
                                results := (hsR wm sub tr ms c p0 p1 p2 p3).results,
                                evs := (hsR wm sub tr ms c p0 p1 p2 p3).evs }
      { mkSys wm sub tr ms with params := hsP p0 p1 p2 p3, cfm := 0,
                                front := .spinIdle (hsR wm sub tr ms c p0 p1 p2 p3).status,
                                cfs := STATUS_IDLE, back := .wait,
                                wm := (hsR wm sub tr ms c p0 p1 p2 p3).wm,
                                sub := (hsR wm sub tr ms c p0 p1 p2 p3).sub,
                                results := (hsR wm sub tr ms c p0 p1 p2 p3).results,
                                evs := (hsR wm sub tr ms c p0 p1 p2 p3).evs }
    := Step.toIdle _ rfl rfl
  have h12 : Step
      { mkSys wm sub tr ms with params := hsP p0 p1 p2 p3, cfm := 0,
                                front := .spinIdle (hsR wm sub tr ms c p0 p1 p2 p3).status,
                                cfs := STATUS_IDLE, back := .wait,
                                wm := (hsR wm sub tr ms c p0 p1 p2 p3).wm,
                                sub := (hsR wm sub tr ms c p0 p1 p2 p3).sub,
                                results := (hsR wm sub tr ms c p0 p1 p2 p3).results,
                                evs := (hsR wm sub tr ms c p0 p1 p2 p3).evs }
      (handshakeEnd wm sub tr ms c p0 p1 p2 p3)
    := Step.observeIdle _ _ rfl rfl
  exact (((((((((((Relation.ReflTransGen.refl.tail h1).tail h2).tail h3).tail
    h4).tail h5).tail h6).tail h7).tail h8).tail h9).tail h10).tail h11).tail h12
/-! ## C7: unrecognized opcodes reach the error path -/

/-- C7: for every opcode with no case in the dispatcher's switch,
(1) `process_command` takes the default path: it signals `STATUS_ERROR`
(0xFF), never `Done`, and touches nothing;
(2) in the handshake machine, whenever the back side finishes processing
such a command (leaves `busy`), the status byte it posts is `Error`, and
it then waits for the front flag to clear;
(3) with a protocol-following front side the handshake nevertheless runs
to completion — there is a finite trace from idle through
`send(c)`/`sub_error` back to both sides idle in which `main_wait_done`
returns `STATUS_ERROR` — so the back side does not spin forever. -/
theorem c7_theorem :
    (∀ (cmd : Nat) (params res0 : Nat → Nat) (wm : WMState) (sub : SubLocal)
        (tr : Bool) (ms : Nat), handledCmd cmd = false →
        (process_command cmd params res0 wm sub tr ms).status = STATUS_ERROR ∧
        (process_command cmd params res0 wm sub tr ms).status ≠ STATUS_DONE ∧
        (process_command cmd params res0 wm sub tr ms).wm = wm) ∧
    (∀ (s s' : Sys) (c : Nat), Step s s' → s.back = BackLoc.busy c →
        s'.back ≠ BackLoc.busy c → handledCmd c = false →
        s'.cfs = STATUS_ERROR ∧ s'.back = BackLoc.waitClear) ∧
    (∀ (wm : WMState) (sub : SubLocal) (tr : Bool) (ms : Nat) (c : Nat),
        c ≠ 0 → c < 256 → handledCmd c = false →
        ∃ s', SysReach (mkSys wm sub tr ms) s' ∧
          s'.front = FrontLoc.finished STATUS_ERROR ∧
          s'.cfm = 0 ∧ s'.cfs = STATUS_IDLE ∧ s'.back = BackLoc.wait) := by
  refine ⟨?_, ?_, ?_⟩
  · intro cmd params res0 wm sub tr ms h
    rw [process_unhandled cmd params res0 wm sub tr ms h]
    exact ⟨rfl, show STATUS_ERROR ≠ STATUS_DONE by decide, rfl⟩
  · intro s s' c hstep hb hne hcu
    cases hstep with
    | startSend c' p0 p1 p2 p3 hc hlt hf => exact absurd hb hne
    | secondSend c' p0 p1 p2 p3 hc hlt hf => exact absurd hb hne
    | guardPass c' p0 p1 p2 p3 hf hs => exact absurd hb hne
    | writeCmdRegs c' p0 p1 p2 p3 hf => exact absurd hb hne
    | setFlag c' hf => exact absurd hb hne
    | callWaitDone hf => exact absurd hb hne
    | observeDone hf hs => exact absurd hb hne
    | clearFlag st hf => exact absurd hb hne
    | observeIdle st hf hs => exact absurd hb hne
    | loopDone st hf => exact absurd hb hne
    | readCmd hb2 hc2 => exact nomatch hb2.symm.trans hb
    | ack c' hb2 => exact nomatch hb2.symm.trans hb
    | toIdle hb2 hc2 => exact nomatch hb2.symm.trans hb
    | processCmd c' hb2 =>
      have hcc : BackLoc.busy c' = BackLoc.busy c := hb2.symm.trans hb
      injection hcc with hcc
      subst hcc
      refine ⟨?_, rfl⟩
      show (process_command c' s.params s.results s.wm s.sub s.tracking
        s.menuSel).status = STATUS_ERROR
      rw [process_unhandled _ _ _ _ _ _ _ hcu]
  · intro wm sub tr ms c hc hlt hcu
    have hR := process_unhandled c (hsP 0 0 0 0) (fun _ => 0) wm sub tr ms hcu
    refine ⟨handshakeEnd wm sub tr ms c 0 0 0 0,
      full_handshake wm sub tr ms c 0 0 0 0 hc hlt, ?_, rfl, rfl, rfl⟩
    show FrontLoc.finished (hsR wm sub tr ms c 0 0 0 0).status
      = FrontLoc.finished STATUS_ERROR
    rw [show hsR wm sub tr ms c 0 0 0 0
      = process_command c (hsP 0 0 0 0) (fun _ => 0) wm sub tr ms from rfl, hR]

/-- C7 witness: the theorem applied to the unhandled opcode 0x22
(`CMD_MOVE_WINDOW`). -/
theorem c7_witness :
    handledCmd 0x22 = false ∧
    (process_command 0x22 (fun _ => 0) (fun _ => 0) WM_InitState SubLocal.init
      false 0).status = STATUS_ERROR ∧
    ∃ s', SysReach (mkSys WM_InitState SubLocal.init false 0) s' ∧
      s'.front = FrontLoc.finished STATUS_ERROR ∧
      s'.cfm = 0 ∧ s'.cfs = STATUS_IDLE ∧ s'.back = BackLoc.wait :=
  ⟨by decide,
   (c7_theorem.1 0x22 (fun _ => 0) (fun _ => 0) WM_InitState SubLocal.init
     false 0 (by decide)).1,
   c7_theorem.2.2 WM_InitState SubLocal.init false 0 0x22 (by decide) (by decide)
     (by decide)⟩

/-! ## C9: render-frame with nothing dirty -/

/-- The `CMD_RENDER_FRAME` case of the dispatcher, written out. -/
theorem process_render_def (params res0 : Nat → Nat) (wm : WMState) (sub : SubLocal)
    (tr : Bool) (ms : Nat) :
    process_command CMD_RENDER_FRAME params res0 wm sub tr ms =
      { wm := WM_EndUpdate wm, sub := sub,
        results := wrRes (wrRes (wrRes res0 0 SUB_STATE_RENDERING) 1 (WM_BeginUpdate wm))
          0 SUB_STATE_READY,
        evs := renderRects wm (WM_BeginUpdate wm)
            ++ [Ev.resetClip, Ev.drawMenuBar]
            ++ (if tr then [Ev.drawDropdown] else [])
            ++ [Ev.drawCursor sub.cursorX sub.cursorY]
            ++ [Ev.releaseBank],
        status := STATUS_DONE } := rfl

/-- C9: a render-frame command (0x10) arriving with zero pending dirty
rectangles still draws the menu bar (and the pull-down when the menu is
tracking) and the cursor, still calls the bank release
(`sub_return_wram`), writes `SUB_STATE_READY` to result register 0, and
signals `Done`; and in the handshake machine the full send → process →
wait-done trace completes with `main_wait_done` returning `STATUS_DONE`
and result register 0 reading `SUB_STATE_READY`. -/
theorem c9_theorem (params res0 : Nat → Nat) (wm : WMState) (sub : SubLocal)
    (tr : Bool) (ms : Nat) (h0 : wm.dirtyCount = 0) :
    (Ev.drawMenuBar ∈ (process_command CMD_RENDER_FRAME params res0 wm sub tr ms).evs ∧
     Ev.drawCursor sub.cursorX sub.cursorY
       ∈ (process_command CMD_RENDER_FRAME params res0 wm sub tr ms).evs ∧
     Ev.releaseBank ∈ (process_command CMD_RENDER_FRAME params res0 wm sub tr ms).evs ∧
     (tr = true →
       Ev.drawDropdown ∈ (process_command CMD_RENDER_FRAME params res0 wm sub tr ms).evs) ∧
     (process_command CMD_RENDER_FRAME params res0 wm sub tr ms).results 0
       = SUB_STATE_READY ∧
     (process_command CMD_RENDER_FRAME params res0 wm sub tr ms).status = STATUS_DONE) ∧
    (∃ s', SysReach (mkSys wm sub tr ms) s' ∧
      s'.front = FrontLoc.finished STATUS_DONE ∧
      s'.results 0 = SUB_STATE_READY ∧
      s'.cfm = 0 ∧ s'.cfs = STATUS_IDLE ∧
      Ev.drawMenuBar ∈ s'.evs ∧
      Ev.drawCursor sub.cursorX sub.cursorY ∈ s'.evs ∧
      Ev.releaseBank ∈ s'.evs) := by
  have hR := process_render_def (hsP 0 0 0 0) (fun _ => 0) wm sub tr ms
  constructor
  · rw [process_render_def]
    refine ⟨?_, ?_, ?_, fun htr => ?_, ?_, rfl⟩
    · simp
    · simp
    · simp
    · simp [htr]
    · simp [wrRes, SUB_STATE_READY]
  · refine ⟨handshakeEnd wm sub tr ms CMD_RENDER_FRAME 0 0 0 0,
      full_handshake wm sub tr ms CMD_RENDER_FRAME 0 0 0 0 (by decide) (by decide),
      ?_, ?_, rfl, rfl, ?_, ?_, ?_⟩
    · show FrontLoc.finished (hsR wm sub tr ms CMD_RENDER_FRAME 0 0 0 0).status
        = FrontLoc.finished STATUS_DONE
      rw [hsR, hR]
    · show (hsR wm sub tr ms CMD_RENDER_FRAME 0 0 0 0).results 0 = SUB_STATE_READY
      rw [hsR, hR]
      simp [wrRes, SUB_STATE_READY]
    · show Ev.drawMenuBar ∈ (hsR wm sub tr ms CMD_RENDER_FRAME 0 0 0 0).evs
      rw [hsR, hR]
      simp
    · show Ev.drawCursor sub.cursorX sub.cursorY
        ∈ (hsR wm sub tr ms CMD_RENDER_FRAME 0 0 0 0).evs
      rw [hsR, hR]
      simp
    · show Ev.releaseBank ∈ (hsR wm sub tr ms CMD_RENDER_FRAME 0 0 0 0).evs
      rw [hsR, hR]
      simp

/-- C9 witness: the theorem applied at the freshly initialised window
manager, whose dirty accumulator is empty. -/
theorem c9_witness :
    (process_command CMD_RENDER_FRAME (fun _ => 0) (fun _ => 0) WM_InitState
      SubLocal.init false 0).results 0 = SUB_STATE_READY ∧
    (process_command CMD_RENDER_FRAME (fun _ => 0) (fun _ => 0) WM_InitState
      SubLocal.init false 0).status = STATUS_DONE ∧
    ∃ s', SysReach (mkSys WM_InitState SubLocal.init false 0) s' ∧
      s'.front = FrontLoc.finished STATUS_DONE ∧
      s'.results 0 = SUB_STATE_READY ∧ s'.cfm = 0 ∧ s'.cfs = STATUS_IDLE ∧
      Ev.drawMenuBar ∈ s'.evs ∧
      Ev.drawCursor SubLocal.init.cursorX SubLocal.init.cursorY ∈ s'.evs ∧
      Ev.releaseBank ∈ s'.evs := by
  have h := c9_theorem (fun _ => 0) (fun _ => 0) WM_InitState SubLocal.init false 0 rfl
  exact ⟨h.1.2.2.2.2.1, h.1.2.2.2.2.2, h.2⟩

/-! ## C2: z-order consistency

The z-order invariant: some duplicate-free list `L` of pool indices
(front to back) describes the doubly-linked chain — `topWindow` is its
head, `bottomWindow` its last element, consecutive elements are doubly
linked, the ends point to null — and the windows on the chain are
exactly the in-use pool slots.  Additionally every pool record's `id`
field equals its index (`pool_free` frees `win->id`). -/

/-- `a` is directly above `b` in the chain. -/
def zlink (s : WMState) (a b : Fin 16) : Prop :=
  (s.pool a).below = some b ∧ (s.pool b).above = some a

/-- The pointer structure matches the list `L` (top to bottom). -/
def ZChain (s : WMState) (L : List (Fin 16)) : Prop :=
  s.topWindow = L.head? ∧
  s.bottomWindow = L.getLast? ∧
  List.Chain' (zlink s) L ∧
  (∀ a ∈ L.head?, (s.pool a).above = none) ∧
  (∀ a ∈ L.getLast?, (s.pool a).below = none) ∧
  L.Nodup

/-- The chain covers exactly the in-use slots. -/
def Zok (s : WMState) (L : List (Fin 16)) : Prop :=
  ZChain s L ∧ (∀ w, s.poolUsed w = true ↔ w ∈ L)

/-- Every pool record's id is its own index. -/
def IdOk (s : WMState) : Prop := ∀ v, (s.pool v).id = v

/-- Walking down from a pointer with bounded fuel. -/
def walkD (s : WMState) : Option (Fin 16) → Nat → List (Fin 16)
  | none, _ => []
  | some _, 0 => []
  | some w, fuel + 1 => w :: walkD s (s.pool w).below fuel

/-- The front-to-back walk from `topWindow` via `below`. -/
def walkDown (s : WMState) : List (Fin 16) := walkD s s.topWindow 16

/-- Walking up from a pointer with bounded fuel. -/
def walkU (s : WMState) : Option (Fin 16) → Nat → List (Fin 16)
  | none, _ => []
  | some _, 0 => []
  | some w, fuel + 1 => w :: walkU s (s.pool w).above fuel

/-- The back-to-front walk from `bottomWindow` via `above`. -/
def walkUp (s : WMState) : List (Fin 16) := walkU s s.bottomWindow 16

/-- The down-walk skeleton: `cur` points at the successive elements of
`L` and falls off to null at the end. -/
def segD (s : WMState) : Option (Fin 16) → List (Fin 16) → Prop
  | cur, [] => cur = none
  | cur, w :: L => cur = some w ∧ segD s (s.pool w).below L

/-- The up-walk skeleton. -/
def segU (s : WMState) : Option (Fin 16) → List (Fin 16) → Prop
  | cur, [] => cur = none
  | cur, w :: L => cur = some w ∧ segU s (s.pool w).above L

theorem segD_of_chain (s : WMState) :
    ∀ L : List (Fin 16), List.Chain' (zlink s) L →
      (∀ a ∈ L.getLast?, (s.pool a).below = none) →
      segD s L.head? L := by
  intro L
  induction L with
  | nil => intro _ _; rfl
  | cons w L ih =>
    intro hc hl
    refine ⟨rfl, ?_⟩
    cases L with
    | nil =>
      have : (s.pool w).below = none := hl w rfl
      simp [segD, this]
    | cons y T =>
      rw [List.chain'_cons] at hc
      have hby : (s.pool w).below = some y := hc.1.1
      rw [hby]
      exact ih hc.2 (by simpa using hl)

theorem segU_of_chain (s : WMState) :
    ∀ L : List (Fin 16), List.Chain' (zlink s) L →
      (∀ a ∈ L.head?, (s.pool a).above = none) →
      segU s L.getLast? L.reverse := by
  intro L
  induction L using List.reverseRecOn with
  | nil => intro _ _; rfl
  | append_singleton M a ih =>
    intro hc hh
    rw [List.getLast?_concat, List.reverse_append, List.reverse_singleton,
      List.singleton_append]
    refine ⟨rfl, ?_⟩
    rw [List.chain'_append] at hc
    cases M with
    | nil =>
      have ha : (s.pool a).above = none := hh a rfl
      simp [segU, ha]
    | cons m Mtl =>
      obtain ⟨u, hu⟩ : ∃ u, (m :: Mtl).getLast? = some u :=
        ⟨(m :: Mtl).getLast (by simp), List.getLast?_eq_getLast _ _⟩
      have hlink : zlink s u a := hc.2.2 u hu a rfl
      have hab : (s.pool a).above = some u := hlink.2
      rw [hab]
      have := ih hc.1 (by simpa using hh)
      rwa [hu] at this

theorem walkD_of_segD (s : WMState) :
    ∀ (L : List (Fin 16)) (cur : Option (Fin 16)) (fuel : Nat),
      segD s cur L → L.length ≤ fuel → walkD s cur fuel = L := by
  intro L
  induction L with
  | nil =>
    intro cur fuel hseg _
    rw [show cur = none from hseg]
    cases fuel <;> rfl
  | cons w L ih =>
    intro cur fuel hseg hlen
    obtain ⟨hcur, hrest⟩ := hseg
    rw [hcur]
    cases fuel with
    | zero => simp at hlen
    | succ fuel =>
      rw [walkD]
      rw [ih _ fuel hrest (by simpa using hlen)]

theorem walkU_of_segU (s : WMState) :
    ∀ (L : List (Fin 16)) (cur : Option (Fin 16)) (fuel : Nat),
      segU s cur L → L.length ≤ fuel → walkU s cur fuel = L := by
  intro L
  induction L with
  | nil =>
    intro cur fuel hseg _
    rw [show cur = none from hseg]
    cases fuel <;> rfl
  | cons w L ih =>
    intro cur fuel hseg hlen
    obtain ⟨hcur, hrest⟩ := hseg
    rw [hcur]
    cases fuel with
    | zero => simp at hlen
    | succ fuel =>
      rw [walkU]
      rw [ih _ fuel hrest (by simpa using hlen)]

theorem chain'_congr_mem {α : Type} {R S : α → α → Prop} (l : List α)
    (h : ∀ a ∈ l, ∀ b ∈ l, R a b → S a b) (hc : List.Chain' R l) :
    List.Chain' S l := by
  rw [List.chain'_iff_get] at hc ⊢
  intro i hi
  exact h _ (List.get_mem _ _ _) _ (List.get_mem _ _ _) (hc i hi)

/-- `ZChain` only looks at the `above`/`below` pointers of chain members
and at the top/bottom registers. -/
theorem zchain_congr (s s' : WMState) (L : List (Fin 16))
    (hab : ∀ v ∈ L, (s'.pool v).above = (s.pool v).above)
    (hbw : ∀ v ∈ L, (s'.pool v).below = (s.pool v).below)
    (ht : s'.topWindow = s.topWindow) (hb : s'.bottomWindow = s.bottomWindow)
    (hz : ZChain s L) : ZChain s' L := by
  obtain ⟨h1, h2, h3, h4, h5, h6⟩ := hz
  refine ⟨ht.trans h1, hb.trans h2, ?_, ?_, ?_, h6⟩
  · exact chain'_congr_mem L
      (fun a ha b hb' hr => ⟨(hbw a ha).trans hr.1, (hab b hb').trans hr.2⟩) h3
  · intro a ha
    rw [hab a (List.mem_of_mem_head? ha)]
    exact h4 a ha
  · intro a ha
    rw [hbw a (List.mem_of_mem_getLast? ha)]
    exact h5 a ha

/-- Decompose the chain around a member: its `above` pointer is the last
element before it, its `below` pointer the first element after it, both
doubly linked to it. -/
theorem zchain_neighbors (s : WMState) (L : List (Fin 16)) (w : Fin 16)
    (hz : ZChain s L) (hw : w ∈ L) :
    ∃ A B, L = A ++ w :: B ∧ w ∉ A ∧ w ∉ B ∧ List.Disjoint A (w :: B) ∧
      (s.pool w).above = A.getLast? ∧ (s.pool w).below = B.head? ∧
      (∀ u, A.getLast? = some u → zlink s u w) ∧
      (∀ b, B.head? = some b → zlink s w b) := by
  obtain ⟨A, B, hL⟩ := List.append_of_mem hw
  obtain ⟨h1, h2, h3, h4, h5, h6⟩ := hz
  subst hL
  rw [List.nodup_append] at h6
  obtain ⟨hA, hwB, hdisj⟩ := h6
  have hwA : w ∉ A := fun hmem => hdisj hmem (by simp)
  have hwB' : w ∉ B := (List.nodup_cons.mp hwB).1
  rw [List.chain'_append] at h3
  obtain ⟨hcA, hcwB, hjoin⟩ := h3
  refine ⟨A, B, rfl, hwA, hwB', hdisj, ?_, ?_, fun u hu => hjoin u hu w rfl, ?_⟩
  · rcases List.eq_nil_or_concat A with hnil | ⟨A', u, hAc⟩
    · subst hnil
      simpa using h4 w (by simp)
    · subst hAc
      have hu : (A'.concat u).getLast? = some u := by
        simp [List.concat_eq_append]
      rw [hu]
      exact (hjoin u hu w rfl).2
  · cases B with
    | nil =>
      have hl : (A ++ w :: ([] : List (Fin 16))).getLast? = some w := by
        simpa using List.getLast?_concat A
      simpa using h5 w (by rw [hl]; rfl)
    | cons b B' =>
      exact (List.chain'_cons.mp hcwB).1.1
  · intro b hb'
    cases B with
    | nil => simp at hb'
    | cons b0 B' =>
      obtain rfl : b0 = b := by simpa using hb'
      exact (List.chain'_cons.mp hcwB).1

/-! ### The four shapes of `zorder_unlink` -/

theorem zorder_unlink_eq_nn (s : WMState) (w : Fin 16)
    (h1 : (s.pool w).above = none) (h2 : (s.pool w).below = none) :
    zorder_unlink s w =
      { s with topWindow := none, bottomWindow := none,
               pool := Function.update s.pool w
                 { s.pool w with above := none, below := none } } := by
  simp only [zorder_unlink, setW, h1, h2]

theorem zorder_unlink_eq_ns (s : WMState) (w b : Fin 16)
    (h1 : (s.pool w).above = none) (h2 : (s.pool w).below = some b)
    (hbw : b ≠ w) :
    zorder_unlink s w =
      { s with topWindow := some b,
               pool := Function.update (Function.update s.pool b
                   { s.pool b with above := none }) w
                 { s.pool w with above := none, below := none } } := by
  have hwb : w ≠ b := fun hh => hbw hh.symm
  simp only [zorder_unlink, setW, h1, h2, Function.update_noteq hwb, h1]

theorem zorder_unlink_eq_sn (s : WMState) (w a : Fin 16)
    (h1 : (s.pool w).above = some a) (h2 : (s.pool w).below = none)
    (haw : a ≠ w) :
    zorder_unlink s w =
      { s with bottomWindow := some a,
               pool := Function.update (Function.update s.pool a
                   { s.pool a with below := none }) w
                 { s.pool w with above := none, below := none } } := by
  have hwa : w ≠ a := fun hh => haw hh.symm
  simp only [zorder_unlink, setW, h1, h2, Function.update_noteq hwa]

theorem zorder_unlink_eq_ss (s : WMState) (w a b : Fin 16)
    (h1 : (s.pool w).above = some a) (h2 : (s.pool w).below = some b)
    (haw : a ≠ w) (hbw : b ≠ w) (hab : a ≠ b) :
    zorder_unlink s w =
      { s with pool := Function.update (Function.update (Function.update s.pool a
                   { s.pool a with below := some b }) b
                 { s.pool b with above := some a }) w
                 { s.pool w with above := none, below := none } } := by
  have hwa : w ≠ a := fun hh => haw hh.symm
  have hwb : w ≠ b := fun hh => hbw hh.symm
  have hba : b ≠ a := fun hh => hab hh.symm
  simp only [zorder_unlink, setW, h1, h2, Function.update_noteq hwa,
    Function.update_noteq hba, Function.update_noteq hwb, h2]

/-! ### Pointer-silent state transformations -/

/-- Slots not in use have null z-order pointers (true initially, and
`zorder_unlink` re-clears them before `pool_free`). -/
def UnusedClear (s : WMState) : Prop :=
  ∀ v, s.poolUsed v = false → (s.pool v).above = none ∧ (s.pool v).below = none

/-- Two pool assignments agreeing on the z-order pointers and ids. -/
def SamePtr (p q : Fin 16 → Window) : Prop :=
  ∀ v, (q v).above = (p v).above ∧ (q v).below = (p v).below ∧ (q v).id = (p v).id

/-- Two states agreeing on everything the z-order invariant looks at. -/
def SameZ (s s' : WMState) : Prop :=
  SamePtr s.pool s'.pool ∧ s'.topWindow = s.topWindow ∧
  s'.bottomWindow = s.bottomWindow ∧ s'.poolUsed = s.poolUsed ∧
  s'.windowCount = s.windowCount

theorem samePtr_refl (p : Fin 16 → Window) : SamePtr p p :=
  fun _ => ⟨rfl, rfl, rfl⟩

theorem samePtr_trans {p q r : Fin 16 → Window}
    (h1 : SamePtr p q) (h2 : SamePtr q r) : SamePtr p r := by
  intro v
  exact ⟨(h2 v).1.trans (h1 v).1, (h2 v).2.1.trans (h1 v).2.1,
    (h2 v).2.2.trans (h1 v).2.2⟩

theorem samePtr_update_flags (p : Fin 16 → Window) (a : Fin 16) (f : Nat) :
    SamePtr p (Function.update p a { p a with flags := f }) := by
  intro v
  by_cases hv : v = a
  · subst hv
    simp
  · simp [Function.update_noteq hv]

theorem sameZ_refl (s : WMState) : SameZ s s :=
  ⟨samePtr_refl _, rfl, rfl, rfl, rfl⟩

theorem sameZ_trans {s t u : WMState} (h1 : SameZ s t) (h2 : SameZ t u) :
    SameZ s u :=
  ⟨samePtr_trans h1.1 h2.1, h2.2.1.trans h1.2.1, h2.2.2.1.trans h1.2.2.1,
    h2.2.2.2.1.trans h1.2.2.2.1, h2.2.2.2.2.trans h1.2.2.2.2⟩

theorem sameZ_invalidate (s : WMState) (r? : Option Rect) :
    SameZ s (WM_InvalidateRect s r?) := by
  obtain ⟨hp, hu, hc, ht, hb, _⟩ := invalidate_frame s r?
  exact ⟨by rw [hp]; exact samePtr_refl _, ht, hb, hu, hc⟩

theorem sameZ_setW_flags (s : WMState) (a : Fin 16) (f : Nat) :
    SameZ s (setW s a { s.pool a with flags := f }) :=
  ⟨samePtr_update_flags s.pool a f, rfl, rfl, rfl, rfl⟩

theorem sameZ_active (s : WMState) (o : Option (Fin 16)) :
    SameZ s { s with activeWindow := o } :=
  ⟨samePtr_refl _, rfl, rfl, rfl, rfl⟩

/-- The invariant ingredients transfer along `SameZ`. -/
theorem sameZ_invariants (s s' : WMState) (h : SameZ s s') :
    (IdOk s → IdOk s') ∧ (UnusedClear s → UnusedClear s') ∧
    (∀ L, Zok s L → Zok s' L) := by
  obtain ⟨hp, ht, hb, hu, _⟩ := h
  refine ⟨fun hid v => ((hp v).2.2).trans (hid v), fun hcl v hv => ?_, fun L hz => ?_⟩
  · rw [hu] at hv
    exact ⟨(hp v).1.trans (hcl v hv).1, (hp v).2.1.trans (hcl v hv).2⟩
  · refine ⟨zchain_congr s s' L (fun v _ => (hp v).1) (fun v _ => (hp v).2.1)
      ht hb hz.1, fun v => ?_⟩
    rw [hu]
    exact hz.2 v

theorem head?_append_left {α : Type} (A X Y : List α) (h : A ≠ []) :
    (A ++ X).head? = (A ++ Y).head? := by
  cases A with
  | nil => exact absurd rfl h
  | cons a t => rfl

/-- Unlinking a chain member closes the chain up over it, clears the
slot's own pointers, and changes nothing else the invariant tracks. -/
theorem zchain_unlink (s : WMState) (L : List (Fin 16)) (w : Fin 16)
    (hz : ZChain s L) (hw : w ∈ L) :
    ∃ A B, L = A ++ w :: B ∧ w ∉ A ∧ w ∉ B ∧
      ZChain (zorder_unlink s w) (A ++ B) ∧
      (zorder_unlink s w).poolUsed = s.poolUsed ∧
      (zorder_unlink s w).windowCount = s.windowCount ∧
      (∀ v, ((zorder_unlink s w).pool v).id = (s.pool v).id) ∧
      ((zorder_unlink s w).pool w).above = none ∧
      ((zorder_unlink s w).pool w).below = none ∧
      (∀ v, v ∉ L → (zorder_unlink s w).pool v = s.pool v) := by
  obtain ⟨A, B, hL, hwA, hwB, hdisj, hwab, hwbe, hlinkA, hlinkB⟩ :=
    zchain_neighbors s L w hz hw
  subst hL
  obtain ⟨h1, h2, h3, h4, h5, h6⟩ := hz
  rw [List.chain'_append] at h3
  obtain ⟨hcA, hcwB, hjoin⟩ := h3
  have hnodAB : (A ++ B).Nodup := (List.nodup_cons.mp (List.nodup_middle.mp h6)).2
  refine ⟨A, B, rfl, hwA, hwB, ?_⟩
  rcases List.eq_nil_or_concat A with rfl | ⟨A', u, rfl⟩
  · cases B with
    | nil =>
      have ha : (s.pool w).above = none := by simpa using hwab
      have hb : (s.pool w).below = none := by simpa using hwbe
      rw [zorder_unlink_eq_nn s w ha hb]
      refine ⟨⟨rfl, rfl, List.chain'_nil, by simp, by simp, List.nodup_nil⟩,
        rfl, rfl, fun v => ?_, ?_, ?_, fun v hv => ?_⟩
      · by_cases hvw : v = w
        · subst hvw; simp
        · simp [Function.update_noteq hvw]
      · simp
      · simp
      · have hvw : v ≠ w := by simpa using hv
        simp [Function.update_noteq hvw]
    | cons b B' =>
      have ha : (s.pool w).above = none := by simpa using hwab
      have hb : (s.pool w).below = some b := by simpa using hwbe
      have hbw : b ≠ w := fun hh => hwB (hh ▸ List.mem_cons_self b B')
      have hlwb : zlink s w b := hlinkB b rfl
      rw [zorder_unlink_eq_ns s w b ha hb hbw]
      have hUbelow : ∀ x, x ≠ w →
          ((Function.update (Function.update s.pool b
              { s.pool b with above := none }) w
            { s.pool w with above := none, below := none }) x).below =
          (s.pool x).below := by
        intro x hxw
        rw [Function.update_noteq hxw]
        by_cases hxb : x = b
        · subst hxb; simp
        · rw [Function.update_noteq hxb]
      have hUabove : ∀ y, y ≠ w → y ≠ b →
          ((Function.update (Function.update s.pool b
              { s.pool b with above := none }) w
            { s.pool w with above := none, below := none }) y).above =
          (s.pool y).above := by
        intro y hyw hyb
        rw [Function.update_noteq hyw, Function.update_noteq hyb]
      refine ⟨⟨rfl, ?_, ?_, ?_, ?_, ?_⟩, rfl, rfl, fun v => ?_, ?_, ?_, fun v hv => ?_⟩
      · rw [h2]
        simp
      · show List.Chain' _ (b :: B')
        refine chain'_congr_mem (b :: B') ?_ hcwB.tail
        intro x hx y hy hxy
        have hxw : x ≠ w := fun hh => hwB (hh ▸ hx)
        have hyw : y ≠ w := fun hh => hwB (hh ▸ hy)
        refine ⟨(hUbelow x hxw).trans hxy.1, ?_⟩
        by_cases hyb : y = b
        · subst hyb
          have : some x = some w := hxy.2.symm.trans hlwb.2
          exact absurd (hwB (Option.some_injective _ this ▸ hx)) (fun hh => hh)
        · exact (hUabove y hyw hyb).trans hxy.2
      · intro a ha'
        have hba : b = a := by simpa using ha'
        subst hba
        simp [Function.update_noteq hbw]
      · intro a ha'
        have hmem : a ∈ b :: B' := List.mem_of_mem_getLast? (by simpa using ha')
        have haw : a ≠ w := fun hh => hwB (hh ▸ hmem)
        refine (hUbelow a haw).trans (h5 a ?_)
        simpa [List.getLast?_cons_cons] using ha'
      · exact (List.nodup_cons.mp (by simpa using h6)).2
      · by_cases hvw : v = w
        · subst hvw; simp
        · by_cases hvb : v = b
          · subst hvb
            simp [Function.update_noteq hbw]
          · simp [Function.update_noteq hvw, Function.update_noteq hvb]
      · simp
      · simp
      · have hvw : v ≠ w := fun hh => hv (hh ▸ by simp)
        have hvb : v ≠ b := fun hh => hv (hh ▸ by simp)
        simp [Function.update_noteq hvw, Function.update_noteq hvb]
  · have hu_mem : u ∈ A'.concat u := by simp [List.concat_eq_append]
    have huw : u ≠ w := fun hh => hwA (hh ▸ hu_mem)
    have hAne : A'.concat u ≠ [] := by simp [List.concat_eq_append]
    have hAlast : (A'.concat u).getLast? = some u := by
      simp [List.concat_eq_append]
    have ha : (s.pool w).above = some u := by rw [hwab, hAlast]
    have hluw : zlink s u w := hlinkA u hAlast
    cases B with
    | nil =>
      have hb : (s.pool w).below = none := by simpa using hwbe
      rw [zorder_unlink_eq_sn s w u ha hb huw]
      have hUabove : ∀ x, x ≠ w →
          ((Function.update (Function.update s.pool u
              { s.pool u with below := none }) w
            { s.pool w with above := none, below := none }) x).above =
          (s.pool x).above := by
        intro x hxw
        rw [Function.update_noteq hxw]
        by_cases hxu : x = u
        · subst hxu; simp
        · rw [Function.update_noteq hxu]
      have hUbelow : ∀ y, y ≠ w → y ≠ u →
          ((Function.update (Function.update s.pool u
              { s.pool u with below := none }) w
            { s.pool w with above := none, below := none }) y).below =
          (s.pool y).below := by
        intro y hyw hyu
        rw [Function.update_noteq hyw, Function.update_noteq hyu]
      refine ⟨⟨?_, ?_, ?_, ?_, ?_, ?_⟩, rfl, rfl, fun v => ?_, ?_, ?_, fun v hv => ?_⟩
      · rw [h1]
        exact head?_append_left _ _ _ hAne
      · rw [List.append_nil, hAlast]
      · rw [List.append_nil]
        refine chain'_congr_mem (A'.concat u) ?_ hcA
        intro x hx y hy hxy
        have hxw : x ≠ w := fun hh => hwA (hh ▸ hx)
        have hyw : y ≠ w := fun hh => hwA (hh ▸ hy)
        refine ⟨?_, (hUabove y hyw).trans hxy.2⟩
        by_cases hxu : x = u
        · subst hxu
          have : some y = some w := hxy.1.symm.trans hluw.1
          exact absurd (hwA (Option.some_injective _ this ▸ hy)) (fun hh => hh)
        · exact (hUbelow x hxw hxu).trans hxy.1
      · intro a ha'
        rw [List.append_nil] at ha'
        have hmem : a ∈ A'.concat u := List.mem_of_mem_head? ha'
        have haw : a ≠ w := fun hh => hwA (hh ▸ hmem)
        rw [hUabove a haw]
        refine h4 a ?_
        rw [head?_append_left (A'.concat u) (w :: []) [] hAne, List.append_nil]
        exact ha'
      · intro a ha'
        rw [List.append_nil, hAlast] at ha'
        have hua : u = a := by simpa using ha'
        subst hua
        simp [Function.update_noteq huw]
      · simpa using hnodAB
      · by_cases hvw : v = w
        · subst hvw; simp
        · by_cases hvu : v = u
          · subst hvu
            simp [Function.update_noteq huw]
          · simp [Function.update_noteq hvw, Function.update_noteq hvu]
      · simp
      · simp
      · have hvw : v ≠ w := fun hh => hv (hh ▸ by simp)
        have hvu : v ≠ u := fun hh => hv (hh ▸ by simp [List.concat_eq_append])
        simp [Function.update_noteq hvw, Function.update_noteq hvu]
    | cons b B' =>
      have hb : (s.pool w).below = some b := by simpa using hwbe
      have hbw : b ≠ w := fun hh => hwB (hh ▸ List.mem_cons_self b B')
      have hub : u ≠ b := by
        intro hh
        subst hh
        exact hdisj hu_mem (List.mem_cons_of_mem w (List.mem_cons_self _ B'))
      have hbu : b ≠ u := fun hh => hub hh.symm
      have hlwb : zlink s w b := hlinkB b rfl
      rw [zorder_unlink_eq_ss s w u b ha hb huw hbw hub]
      have hUu : (Function.update (Function.update (Function.update s.pool u
            { s.pool u with below := some b }) b
            { s.pool b with above := some u }) w
            { s.pool w with above := none, below := none }) u =
          { s.pool u with below := some b } := by
        rw [Function.update_noteq huw, Function.update_noteq hub]
        simp
      have hUb : (Function.update (Function.update (Function.update s.pool u
            { s.pool u with below := some b }) b
            { s.pool b with above := some u }) w
            { s.pool w with above := none, below := none }) b =
          { s.pool b with above := some u } := by
        rw [Function.update_noteq hbw]
        simp
      have hUabove : ∀ x, x ≠ w → x ≠ b →
          ((Function.update (Function.update (Function.update s.pool u
              { s.pool u with below := some b }) b
              { s.pool b with above := some u }) w
            { s.pool w with above := none, below := none }) x).above =
          (s.pool x).above := by
        intro x hxw hxb
        rw [Function.update_noteq hxw, Function.update_noteq hxb]
        by_cases hxu : x = u
        · subst hxu; simp
        · rw [Function.update_noteq hxu]
      have hUbelow : ∀ y, y ≠ w → y ≠ u →
          ((Function.update (Function.update (Function.update s.pool u
              { s.pool u with below := some b }) b
              { s.pool b with above := some u }) w
            { s.pool w with above := none, below := none }) y).below =
          (s.pool y).below := by
        intro y hyw hyu
        rw [Function.update_noteq hyw]
        by_cases hyb : y = b
        · subst hyb; simp
        · rw [Function.update_noteq hyb, Function.update_noteq hyu]
      refine ⟨⟨?_, ?_, ?_, ?_, ?_, ?_⟩, rfl, rfl, fun v => ?_, ?_, ?_, fun v hv => ?_⟩
      · rw [h1]
        exact head?_append_left _ _ _ hAne
      · rw [h2, List.getLast?_append_cons, List.getLast?_append_cons,
          List.getLast?_cons_cons]
      · rw [List.chain'_append]
        refine ⟨?_, ?_, ?_⟩
        · refine chain'_congr_mem (A'.concat u) ?_ hcA
          intro x hx y hy hxy
          have hxw : x ≠ w := fun hh => hwA (hh ▸ hx)
          have hyw : y ≠ w := fun hh => hwA (hh ▸ hy)
          have hyb : y ≠ b := by
            intro hh
            subst hh
            exact hdisj hy (List.mem_cons_of_mem w (List.mem_cons_self _ B'))
          refine ⟨?_, (hUabove y hyw hyb).trans hxy.2⟩
          by_cases hxu : x = u
          · subst hxu
            have : some y = some w := hxy.1.symm.trans hluw.1
            exact absurd (hwA (Option.some_injective _ this ▸ hy)) (fun hh => hh)
          · exact (hUbelow x hxw hxu).trans hxy.1
        · refine chain'_congr_mem (b :: B') ?_ hcwB.tail
          intro x hx y hy hxy
          have hxw : x ≠ w := fun hh => hwB (hh ▸ hx)
          have hyw : y ≠ w := fun hh => hwB (hh ▸ hy)
          have hxu : x ≠ u := by
            intro hh
            subst hh
            exact hdisj hu_mem (List.mem_cons_of_mem w hx)
          refine ⟨(hUbelow x hxw hxu).trans hxy.1, ?_⟩
          by_cases hyb : y = b
          · subst hyb
            have : some x = some w := hxy.2.symm.trans hlwb.2
            exact absurd (hwB (Option.some_injective _ this ▸ hx)) (fun hh => hh)
          · exact (hUabove y hyw hyb).trans hxy.2
        · intro x hx y hy
          rw [hAlast] at hx
          have hux : u = x := by simpa using hx
          have hby : b = y := by simpa using hy
          subst hux
          subst hby
          exact ⟨by simp [hUu], by simp [hUb]⟩
      · intro a ha'
        rw [head?_append_left (A'.concat u) (b :: B') (w :: b :: B') hAne] at ha'
        have hmem : a ∈ A'.concat u :=
          List.mem_of_mem_head? (by
            rwa [head?_append_left (A'.concat u) (w :: b :: B') [] hAne,
              List.append_nil] at ha')
        have haw : a ≠ w := fun hh => hwA (hh ▸ hmem)
        have hab' : a ≠ b := by
          intro hh
          subst hh
          exact hdisj hmem (List.mem_cons_of_mem w (List.mem_cons_self _ B'))
        refine (hUabove a haw hab').trans (h4 a ha')
      · intro a ha'
        rw [List.getLast?_append_cons] at ha'
        have hmem : a ∈ b :: B' := List.mem_of_mem_getLast? ha'
        have haw : a ≠ w := fun hh => hwB (hh ▸ hmem)
        have hau : a ≠ u := by
          intro hh
          subst hh
          exact hdisj hu_mem (List.mem_cons_of_mem w hmem)
        refine (hUbelow a haw hau).trans (h5 a ?_)
        rw [List.getLast?_append_cons, List.getLast?_cons_cons]
        exact ha'
      · exact hnodAB
      · by_cases hvw : v = w
        · subst hvw; simp
        · by_cases hvb : v = b
          · subst hvb
            simp [Function.update_noteq hbw]
          · by_cases hvu : v = u
            · subst hvu
              simp [Function.update_noteq huw, Function.update_noteq hub]
            · simp [Function.update_noteq hvw, Function.update_noteq hvb,
                Function.update_noteq hvu]
      · simp
      · simp
      · have hvw : v ≠ w := fun hh => hv (hh ▸ by simp)
        have hvu : v ≠ u := fun hh => hv (hh ▸ by simp [List.concat_eq_append])
        have hvb : v ≠ b := fun hh => hv (hh ▸ by simp)
        simp [Function.update_noteq hvw, Function.update_noteq hvb,
          Function.update_noteq hvu]

/-- Pushing a window that is not a chain member onto the top of the
chain.  `zorder_push_top` overwrites both of the window's pointers, so
no detachment precondition is needed. -/
theorem zchain_push_top (s : WMState) (L : List (Fin 16)) (w : Fin 16)
    (hz : ZChain s L) (hw : w ∉ L) :
    ZChain (zorder_push_top s w) (w :: L) ∧
    (zorder_push_top s w).poolUsed = s.poolUsed ∧
    (zorder_push_top s w).windowCount = s.windowCount ∧
    (zorder_push_top s w).activeWindow = s.activeWindow ∧
    (∀ v, ((zorder_push_top s w).pool v).id = (s.pool v).id) ∧
    (∀ v, v ∉ L → v ≠ w → (zorder_push_top s w).pool v = s.pool v) := by
  obtain ⟨h1, h2, h3, h4, h5, h6⟩ := hz
  cases L with
  | nil =>
    rw [show zorder_push_top s w =
        { s with topWindow := some w, bottomWindow := some w,
                 pool := Function.update s.pool w
                   { s.pool w with above := none, below := none } } by
      simp only [zorder_push_top, setW, h1, h2, List.head?_nil, List.getLast?_nil,
        if_true]]
    refine ⟨⟨rfl, rfl, ?_, ?_, ?_, ?_⟩, rfl, rfl, rfl, fun v => ?_, fun v _ hvw => ?_⟩
    · simp
    · intro a ha'
      obtain rfl : w = a := by simpa using ha'
      simp
    · intro a ha'
      obtain rfl : w = a := by simpa using ha'
      simp
    · simp
    · by_cases hvw : v = w
      · subst hvw; simp
      · simp [Function.update_noteq hvw]
    · simp [Function.update_noteq hvw]
  | cons t L' =>
    have htw : t ≠ w := fun hh => hw (hh ▸ List.mem_cons_self t L')
    have hwt : w ≠ t := fun hh => htw hh.symm
    obtain ⟨z, hzlast⟩ : ∃ z, (t :: L').getLast? = some z :=
      ⟨(t :: L').getLast (by simp), List.getLast?_eq_getLast _ _⟩
    have hbz : s.bottomWindow ≠ none := by rw [h2, hzlast]; simp
    rw [show zorder_push_top s w =
        { s with topWindow := some w,
                 pool := Function.update (Function.update s.pool w
                     { s.pool w with above := none, below := s.topWindow }) t
                   { s.pool t with above := some w } } by
      simp only [zorder_push_top, setW, h1, List.head?_cons]
      rw [Function.update_noteq htw, if_neg (by simpa [h1] using hbz)]]
    have hUt : (Function.update (Function.update s.pool w
          { s.pool w with above := none, below := s.topWindow }) t
          { s.pool t with above := some w }) t =
        { s.pool t with above := some w } := by simp
    have hUw : (Function.update (Function.update s.pool w
          { s.pool w with above := none, below := s.topWindow }) t
          { s.pool t with above := some w }) w =
        { s.pool w with above := none, below := s.topWindow } := by
      rw [Function.update_noteq hwt]
      simp
    have hUo : ∀ v, v ≠ w → v ≠ t →
        (Function.update (Function.update s.pool w
            { s.pool w with above := none, below := s.topWindow }) t
          { s.pool t with above := some w }) v = s.pool v := by
      intro v hvw hvt
      rw [Function.update_noteq hvt, Function.update_noteq hvw]
    refine ⟨⟨rfl, ?_, ?_, ?_, ?_, ?_⟩, rfl, rfl, rfl, fun v => ?_, fun v hv hvw => ?_⟩
    · simpa using h2
    · rw [List.chain'_cons]
      refine ⟨⟨?_, ?_⟩, ?_⟩
      · exact (congrArg Window.below hUw).trans h1
      · exact congrArg Window.above hUt
      · refine chain'_congr_mem (t :: L') ?_ h3
        intro x hx y hy hxy
        have hxw : x ≠ w := fun hh => hw (hh ▸ hx)
        have hyw : y ≠ w := fun hh => hw (hh ▸ hy)
        refine ⟨?_, ?_⟩
        · by_cases hxt : x = t
          · subst hxt
            exact (congrArg Window.below hUt).trans hxy.1
          · exact (congrArg Window.below (hUo x hxw hxt)).trans hxy.1
        · by_cases hyt : y = t
          · exact absurd ((hyt ▸ hxy.2).symm.trans (h4 t rfl)) (by simp)
          · exact (congrArg Window.above (hUo y hyw hyt)).trans hxy.2
    · intro a ha'
      obtain rfl : w = a := by simpa using ha'
      exact congrArg Window.above hUw
    · intro a ha'
      have ha2 : a ∈ (t :: L').getLast? := by
        rw [show ((w :: t :: L').getLast? : Option (Fin 16)) = (t :: L').getLast?
          from List.getLast?_cons_cons] at ha'
        exact ha'
      have hmem : a ∈ t :: L' := List.mem_of_mem_getLast? ha2
      have haw : a ≠ w := fun hh => hw (hh ▸ hmem)
      by_cases hat : a = t
      · subst hat
        exact (congrArg Window.below hUt).trans (h5 _ ha2)
      · exact (congrArg Window.below (hUo a haw hat)).trans (h5 a ha2)
    · exact List.nodup_cons.mpr ⟨hw, h6⟩
    · by_cases hvw : v = w
      · subst hvw
        exact (congrArg Window.id hUw).trans rfl
      · by_cases hvt : v = t
        · subst hvt
          exact (congrArg Window.id hUt).trans rfl
        · exact congrArg Window.id (hUo v hvw hvt)
    · have hvt : v ≠ t := fun hh => hv (hh ▸ List.mem_cons_self t L')
      exact hUo v hvw hvt

/-- The freshly-built window record inherits the z-order pointers and id
of the slot contents it is built from (only frame/style/flags/title and
the computed sub-rects are set). -/
theorem newWindowRecord_ptr (win0 : Window) (bounds : Rect)
    (title : Option (List Nat)) (style flags : Nat) :
    (newWindowRecord win0 bounds title style flags).above = win0.above ∧
    (newWindowRecord win0 bounds title style flags).below = win0.below ∧
    (newWindowRecord win0 bounds title style flags).id = win0.id := by
  simp only [newWindowRecord, compute_window_rects]
  rcases title with _ | t <;> split_ifs <;> exact ⟨rfl, rfl, rfl⟩

/-- Everything `newWindowFinish` does after the z-order push is
pointer-silent. -/
theorem newWindowFinish_z (s2 : WMState) (w : Fin 16) (fl : Nat) :
    SameZ (zorder_push_top s2 w) (newWindowFinish s2 w fl) := by
  have hbase : ∀ s6 : WMState,
      SameZ s6 (if fl &&& WF_VISIBLE ≠ 0 then WM_InvalidateWindow s6 w else s6) := by
    intro s6
    by_cases hv : fl &&& WF_VISIBLE ≠ 0
    · rw [if_pos hv]
      exact sameZ_invalidate s6 _
    · rw [if_neg hv]
      exact sameZ_refl s6
  unfold newWindowFinish WM_InvalidateWindow
  rcases hact : (zorder_push_top s2 w).activeWindow with _ | a
  · simp only [hact]
    exact sameZ_trans (sameZ_trans (sameZ_active _ (some w))
      (sameZ_setW_flags _ w _)) (hbase _)
  · simp only [hact]
    exact sameZ_trans (sameZ_trans (sameZ_trans (sameZ_setW_flags _ a _)
      (sameZ_active _ (some w))) (sameZ_setW_flags _ w _)) (hbase _)

/-- The z-order invariant carried through every Window Manager call. -/
def WMInv (s : WMState) : Prop :=
  IdOk s ∧ UnusedClear s ∧ ∃ L, Zok s L

theorem wmInv_init : WMInv WM_InitState := by
  refine ⟨fun v => rfl, fun v _ => ⟨rfl, rfl⟩, [], ⟨rfl, rfl, List.chain'_nil,
    by simp, by simp, List.nodup_nil⟩, fun v => ?_⟩
  simp [WM_InitState]

/-- `WM_NewWindow` preserves the invariant. -/
theorem wmInv_new (s : WMState) (bounds : Rect) (title : Option (List Nat))
    (style flags : Nat) (h : WMInv s) :
    WMInv (WM_NewWindow s bounds title style flags).2 := by
  obtain ⟨hid, hcl, L, hzc, hmem⟩ := h
  unfold WM_NewWindow pool_alloc
  rcases hff : firstFree s.poolUsed with _ | w
  · simp only [hff]
    exact ⟨hid, hcl, L, hzc, hmem⟩
  · have hwfree : s.poolUsed w = false := by
      have := List.find?_some hff
      simpa using this
    have hwL : w ∉ L := by
      intro hmem'
      have ht := (hmem w).mpr hmem'
      rw [hwfree] at ht
      exact absurd ht (by decide)
    simp only [hff]
    set s1 : WMState :=
      { s with poolUsed := Function.update s.poolUsed w true
               windowCount := s.windowCount + 1
               pool := Function.update s.pool w (zeroWindow w) } with hs1
    set R : Window := newWindowRecord (s1.pool w) bounds title style flags with hR
    set s2 : WMState := setW s1 w R with hs2
    obtain ⟨hRa, hRb, hRi⟩ := newWindowRecord_ptr (s1.pool w) bounds title style flags
    have hs1poolw : s1.pool w = zeroWindow w := by
      simp [hs1]
    have hzc2 : ZChain s2 L := by
      refine zchain_congr s s2 L (fun v hv => ?_) (fun v hv => ?_) rfl rfl hzc
      all_goals
        have hvw : v ≠ w := fun hh => hwL (hh ▸ hv)
        simp [hs2, hs1, setW, Function.update_noteq hvw]
    obtain ⟨hzc3, hused3, hcnt3, hact3, hid3, hother3⟩ :=
      zchain_push_top s2 L w hzc2 hwL
    obtain ⟨hfp, hft, hfb, hfu, hfc⟩ := newWindowFinish_z s2 w flags
    refine ⟨?_, ?_, w :: L, ?_, ?_⟩
    · intro v
      refine ((hfp v).2.2).trans ((hid3 v).trans ?_)
      by_cases hvw : v = w
      · subst hvw
        rw [hs2]
        simp only [setW, Function.update_same]
        refine hRi.trans ?_
        rw [hs1poolw]
        rfl
      · rw [hs2]
        simp only [setW, Function.update_noteq hvw]
        exact hid v
    · intro v hv
      rw [hfu, hused3] at hv
      have hv' : Function.update s.poolUsed w true v = false := hv
      have hvw : v ≠ w := by
        intro hh
        subst hh
        rw [Function.update_same] at hv'
        exact absurd hv' (by decide)
      rw [Function.update_noteq hvw] at hv'
      have hvL : v ∉ L := by
        intro hmem'
        have ht := (hmem v).mpr hmem'
        rw [hv'] at ht
        exact absurd ht (by decide)
      have hnt : s2.pool v = s.pool v := by
        simp [hs2, hs1, setW, Function.update_noteq hvw]
      have h2 := hother3 v hvL hvw
      refine ⟨((hfp v).1).trans ?_, ((hfp v).2.1).trans ?_⟩
      · rw [h2, hnt]
        exact (hcl v hv').1
      · rw [h2, hnt]
        exact (hcl v hv').2
    · exact zchain_congr _ _ _ (fun v _ => (hfp v).1) (fun v _ => (hfp v).2.1)
        hft hfb hzc3
    · intro v
      rw [hfu, hused3]
      show Function.update s.poolUsed w true v = true ↔ v ∈ w :: L
      by_cases hvw : v = w
      · subst hvw
        simp
      · rw [Function.update_noteq hvw, hmem v]
        constructor
        · exact fun hv => List.mem_cons_of_mem w hv
        · intro hv
          rcases List.mem_cons.mp hv with hh | hv'
          · exact absurd hh hvw
          · exact hv'

theorem wmInv_sameZ (s s' : WMState) (hz : SameZ s s') (h : WMInv s) : WMInv s' := by
  obtain ⟨f1, f2, f3⟩ := sameZ_invariants s s' hz
  obtain ⟨hid, hcl, L, hzc, hmem⟩ := h
  exact ⟨f1 hid, f2 hcl, L, (f3 L ⟨hzc, hmem⟩).1, (f3 L ⟨hzc, hmem⟩).2⟩

/-- Unlink followed by pointer-silent bookkeeping followed by
`pool_free` (the `WM_DisposeWindow` shape) preserves the invariant. -/
theorem wmInv_unlink_free (s1 : WMState) (w : Fin 16) (s3 : WMState)
    (hw : s1.poolUsed w = true) (h1 : WMInv s1)
    (hz3 : SameZ (zorder_unlink s1 w) s3) :
    WMInv (pool_free s3 w) := by
  obtain ⟨hid, hcl, L, hzc, hmem⟩ := h1
  obtain ⟨A, B, hLdec, hwA, hwB, hzc2, hused2, hcnt2, hid2, hwa2, hwb2, hother2⟩ :=
    zchain_unlink s1 L w hzc ((hmem w).mp hw)
  obtain ⟨hp3, ht3, hb3, hu3, hc3⟩ := hz3
  have hid3 : IdOk s3 := fun v => ((hp3 v).2.2).trans ((hid2 v).trans (hid v))
  have hidw : (s3.pool w).id = w := hid3 w
  unfold pool_free
  rw [hidw]
  refine ⟨fun v => hid3 v, ?_, A ++ B, ?_, ?_⟩
  · intro v hv
    have hv' : Function.update s3.poolUsed w false v = false := hv
    by_cases hvw : v = w
    · subst hvw
      exact ⟨((hp3 v).1).trans hwa2, ((hp3 v).2.1).trans hwb2⟩
    · rw [Function.update_noteq hvw] at hv'
      rw [hu3, hused2] at hv'
      have hvL : v ∉ L := by
        intro hmem'
        have ht := (hmem v).mpr hmem'
        rw [hv'] at ht
        exact absurd ht (by decide)
      refine ⟨((hp3 v).1).trans ?_, ((hp3 v).2.1).trans ?_⟩
      · rw [hother2 v hvL]
        exact (hcl v hv').1
      · rw [hother2 v hvL]
        exact (hcl v hv').2
  · refine zchain_congr s3 _ (A ++ B) (fun v _ => rfl) (fun v _ => rfl) rfl rfl ?_
    exact zchain_congr _ s3 (A ++ B) (fun v _ => (hp3 v).1) (fun v _ => (hp3 v).2.1)
      ht3 hb3 hzc2
  · intro v
    show Function.update s3.poolUsed w false v = true ↔ v ∈ A ++ B
    by_cases hvw : v = w
    · subst hvw
      rw [Function.update_same]
      constructor
      · intro hh
        exact absurd hh (by decide)
      · intro hh
        rcases List.mem_append.mp hh with h' | h'
        · exact absurd h' hwA
        · exact absurd h' hwB
    · rw [Function.update_noteq hvw, hu3, hused2, hmem v, hLdec]
      simp only [List.mem_append, List.mem_cons]
      constructor
      · intro hh
        rcases hh with h' | h' | h'
        · exact Or.inl h'
        · exact absurd h' hvw
        · exact Or.inr h'
      · intro hh
        rcases hh with h' | h'
        · exact Or.inl h'
        · exact Or.inr (Or.inr h')

/-- `WM_DisposeWindow` on a live window preserves the invariant. -/
theorem wmInv_dispose (s : WMState) (w : Fin 16) (hw : s.poolUsed w = true)
    (h : WMInv s) : WMInv (WM_DisposeWindow s w) := by
  unfold WM_DisposeWindow
  have hz1 : SameZ s (WM_InvalidateRect s (some (s.pool w).frame)) :=
    sameZ_invalidate s _
  have h1 : WMInv (WM_InvalidateRect s (some (s.pool w).frame)) :=
    wmInv_sameZ s _ hz1 h
  have hw1 : (WM_InvalidateRect s (some (s.pool w).frame)).poolUsed w = true := by
    rw [hz1.2.2.2.1]
    exact hw
  refine wmInv_unlink_free _ w _ hw1 h1 ?_
  split
  · rcases hta : (zorder_unlink (WM_InvalidateRect s (some (s.pool w).frame)) w).topWindow
      with _ | a <;> simp only [hta]
    · exact ⟨samePtr_refl _, hta.symm, rfl, rfl, rfl⟩
    · exact ⟨samePtr_update_flags _ a _, hta.symm, rfl, rfl, rfl⟩
  · exact sameZ_refl _

/-- Unlink-then-push-to-top followed by pointer-silent bookkeeping (the
`WM_SelectWindow` shape) preserves the invariant. -/
theorem wmInv_select_core (s1 : WMState) (w : Fin 16) (s5 : WMState)
    (hw : s1.poolUsed w = true) (h1 : WMInv s1)
    (hz5 : SameZ (zorder_push_top (zorder_unlink s1 w) w) s5) :
    WMInv s5 := by
  obtain ⟨hid, hcl, L, hzc, hmem⟩ := h1
  obtain ⟨A, B, hLdec, hwA, hwB, hzc2, hused2, hcnt2, hid2, hwa2, hwb2, hother2⟩ :=
    zchain_unlink s1 L w hzc ((hmem w).mp hw)
  have hwAB : w ∉ A ++ B := fun hh => (List.mem_append.mp hh).elim hwA hwB
  obtain ⟨hzc3, hused3, hcnt3, hact3, hid3, hother3⟩ :=
    zchain_push_top (zorder_unlink s1 w) (A ++ B) w hzc2 hwAB
  obtain ⟨hp5, ht5, hb5, hu5, hc5⟩ := hz5
  refine ⟨?_, ?_, w :: (A ++ B), ?_, ?_⟩
  · exact fun v => ((hp5 v).2.2).trans ((hid3 v).trans ((hid2 v).trans (hid v)))
  · intro v hv
    rw [hu5, hused3, hused2] at hv
    have hvL : v ∉ L := by
      intro hmem'
      have ht := (hmem v).mpr hmem'
      rw [hv] at ht
      exact absurd ht (by decide)
    have hvw : v ≠ w := by
      intro hh
      subst hh
      rw [hv] at hw
      exact absurd hw (by decide)
    have hvAB : v ∉ A ++ B := by
      intro hh
      refine hvL ?_
      rw [hLdec]
      rcases List.mem_append.mp hh with h' | h'
      · exact List.mem_append.mpr (Or.inl h')
      · exact List.mem_append.mpr (Or.inr (List.mem_cons_of_mem w h'))
    refine ⟨((hp5 v).1).trans ?_, ((hp5 v).2.1).trans ?_⟩
    · rw [hother3 v hvAB hvw, hother2 v hvL]
      exact (hcl v hv).1
    · rw [hother3 v hvAB hvw, hother2 v hvL]
      exact (hcl v hv).2
  · exact zchain_congr _ s5 _ (fun v _ => (hp5 v).1) (fun v _ => (hp5 v).2.1)
      ht5 hb5 hzc3
  · intro v
    rw [hu5, hused3, hused2, hmem v, hLdec]
    simp only [List.mem_append, List.mem_cons]
    constructor
    · intro hh
      rcases hh with h' | h' | h'
      · exact Or.inr (Or.inl h')
      · exact Or.inl h'
      · exact Or.inr (Or.inr h')
    · intro hh
      rcases hh with h' | h' | h'
      · exact Or.inr (Or.inl h')
      · exact Or.inl h'
      · exact Or.inr (Or.inr h')

/-- `WM_SelectWindow` on a live window preserves the invariant. -/
theorem wmInv_select (s : WMState) (w : Fin 16) (hw : s.poolUsed w = true)
    (h : WMInv s) : WMInv (WM_SelectWindow s w) := by
  unfold WM_SelectWindow
  split
  · exact h
  · rcases hact : s.activeWindow with _ | a <;> simp only [hact]
    · refine wmInv_select_core s w _ hw h ?_
      exact sameZ_trans (sameZ_trans (sameZ_active _ _) (sameZ_setW_flags _ _ _))
        (sameZ_invalidate _ _)
    · have hz1 : SameZ s (WM_InvalidateWindow
          (setW s a { s.pool a with flags := (s.pool a).flags &&& 0xFD }) a) :=
        sameZ_trans (sameZ_setW_flags s a _) (sameZ_invalidate _ _)
      refine wmInv_select_core _ w _ ?_ (wmInv_sameZ s _ hz1 h) ?_
      · rw [hz1.2.2.2.1]
        exact hw
      · exact sameZ_trans (sameZ_trans (sameZ_active _ _) (sameZ_setW_flags _ _ _))
          (sameZ_invalidate _ _)

/-- `WM_SendToBack` on a live window preserves the invariant. -/
theorem wmInv_sendback (s : WMState) (w : Fin 16) (hw : s.poolUsed w = true)
    (h : WMInv s) : WMInv (WM_SendToBack s w) := by
  obtain ⟨hid, hcl, L, hzc, hmem⟩ := h
  unfold WM_SendToBack
  by_cases hbot : s.bottomWindow = some w
  · rw [if_pos hbot]
    exact ⟨hid, hcl, L, hzc, hmem⟩
  · rw [if_neg hbot]
    obtain ⟨A, B, hLdec, hwA, hwB, hzc2, hused2, hcnt2, hid2, hwa2, hwb2, hother2⟩ :=
      zchain_unlink s L w hzc ((hmem w).mp hw)
    have hwAB : w ∉ A ++ B := fun hh => (List.mem_append.mp hh).elim hwA hwB
    have hBne : B ≠ [] := by
      intro hB
      subst hB
      apply hbot
      have hb := hzc.2.1
      rw [hLdec, List.getLast?_append_cons] at hb
      simpa using hb
    have hABne : A ++ B ≠ [] := by
      intro hh
      exact hBne (List.append_eq_nil.mp hh).2
    obtain ⟨u, hu⟩ : ∃ u, (A ++ B).getLast? = some u :=
      ⟨(A ++ B).getLast hABne, List.getLast?_eq_getLast _ _⟩
    have hum : u ∈ A ++ B := List.mem_of_mem_getLast? hu
    have huw : u ≠ w := fun hh => hwAB (hh ▸ hum)
    have hwu : w ≠ u := fun hh => huw hh.symm
    obtain ⟨d, hhd⟩ : ∃ d, (A ++ B).head? = some d :=
      ⟨(A ++ B).head hABne, List.head?_eq_head _⟩
    have hdm : d ∈ A ++ B := List.mem_of_mem_head? hhd
    have hdw : d ≠ w := fun hh => hwAB (hh ▸ hdm)
    obtain ⟨ht2, hb2', hch2, hha2, hlb2, hnd2⟩ := hzc2
    have hb2 : (zorder_unlink s w).bottomWindow = some u := by rw [hb2', hu]
    simp only [setW, hb2, ht2, hhd, Function.update_noteq huw]
    rw [if_neg (by simp)]
    refine wmInv_sameZ _ _ (sameZ_invalidate _ _) ?_
    refine ⟨?_, ?_, (A ++ B) ++ [w], ⟨?_, ?_, ?_, ?_, ?_, ?_⟩, ?_⟩
    · intro v
      by_cases hvw : v = w
      · subst hvw
        simp only [Function.update_noteq hwu, Function.update_same]
        exact (hid2 v).trans (hid v)
      · by_cases hvu : v = u
        · subst hvu
          simp only [Function.update_same, Function.update_noteq huw]
          exact (hid2 v).trans (hid v)
        · simp only [Function.update_noteq hvu, Function.update_noteq hvw]
          exact (hid2 v).trans (hid v)
    · intro v hv
      have hv0 : (zorder_unlink s w).poolUsed v = false := hv
      rw [hused2] at hv0
      have hvL : v ∉ L := by
        intro hmem'
        have ht := (hmem v).mpr hmem'
        rw [hv0] at ht
        exact absurd ht (by decide)
      have hvw : v ≠ w := by
        intro hh
        subst hh
        rw [hv0] at hw
        exact absurd hw (by decide)
      have hvu : v ≠ u := by
        intro hh
        subst hh
        refine hvL ?_
        rw [hLdec]
        rcases List.mem_append.mp hum with hq | hq
        · exact List.mem_append.mpr (Or.inl hq)
        · exact List.mem_append.mpr (Or.inr (List.mem_cons_of_mem w hq))
      simp only [Function.update_noteq hvu, Function.update_noteq hvw, hother2 v hvL]
      exact hcl v hv0
    · show some d = (((A ++ B) ++ [w]).head? : Option (Fin 16))
      rw [head?_append_left (A ++ B) [w] [] hABne, List.append_nil, hhd]
    · show (some w : Option (Fin 16)) = ((A ++ B) ++ w :: []).getLast?
      rw [List.getLast?_append_cons]
      rfl
    · rw [List.chain'_append]
      refine ⟨?_, List.chain'_singleton w, ?_⟩
      · refine chain'_congr_mem (A ++ B) ?_ hch2
        intro x hx y hy hxy
        have hxw : x ≠ w := fun hh => hwAB (hh ▸ hx)
        have hyw : y ≠ w := fun hh => hwAB (hh ▸ hy)
        refine ⟨?_, ?_⟩
        · by_cases hxu : x = u
          · subst hxu
            have hnone := hlb2 x hu
            rw [hxy.1] at hnone
            exact absurd hnone (by simp)
          · simp only [Function.update_noteq hxu, Function.update_noteq hxw]
            exact hxy.1
        · by_cases hyu : y = u
          · subst hyu
            simp only [Function.update_same, Function.update_noteq huw]
            exact hxy.2
          · simp only [Function.update_noteq hyu, Function.update_noteq hyw]
            exact hxy.2
      · intro x hx y hy
        rw [hu] at hx
        have hux : u = x := by simpa using hx
        have hwy : w = y := by simpa using hy
        subst hux
        subst hwy
        refine ⟨?_, ?_⟩
        · simp only [Function.update_same]
        · simp only [Function.update_noteq hwu, Function.update_same]
    · intro a ha'
      rw [head?_append_left (A ++ B) [w] [] hABne, List.append_nil, hhd] at ha'
      have hda : d = a := by simpa using ha'
      subst hda
      by_cases hdu : d = u
      · subst hdu
        simp only [Function.update_same, Function.update_noteq huw]
        exact hha2 _ hhd
      · simp only [Function.update_noteq hdu, Function.update_noteq hdw]
        exact hha2 _ hhd
    · intro a ha'
      rw [List.getLast?_append_cons] at ha'
      have hwa : w = a := by simpa using ha'
      subst hwa
      simp only [Function.update_noteq hwu, Function.update_same]
    · rw [show ((A ++ B) ++ [w] : List (Fin 16)) = (A ++ B) ++ w :: [] from rfl,
        List.nodup_middle, List.append_nil]
      exact List.nodup_cons.mpr ⟨hwAB, hnd2⟩
    · intro v
      show (zorder_unlink s w).poolUsed v = true ↔ _
      rw [hused2, hmem v, hLdec]
      simp only [List.mem_append, List.mem_cons, List.not_mem_nil, or_false]
      constructor
      · intro hh
        rcases hh with hq | hq | hq
        · exact Or.inl (Or.inl hq)
        · exact Or.inr hq
        · exact Or.inl (Or.inr hq)
      · intro hh
        rcases hh with (hq | hq) | hq
        · exact Or.inl hq
        · exact Or.inr (Or.inr hq)
        · exact Or.inr (Or.inl hq)

/-- States reachable from `WM_Init` through the four z-order-affecting
calls, each applied to a live window (the C callers pass pointers to
allocated pool records). -/
inductive WMReach : WMState → Prop
  | init : WMReach WM_InitState
  | newW (s : WMState) (bounds : Rect) (title : Option (List Nat))
      (style flags : Nat) :
      WMReach s → WMReach (WM_NewWindow s bounds title style flags).2
  | dispose (s : WMState) (w : Fin 16) : WMReach s → s.poolUsed w = true →
      WMReach (WM_DisposeWindow s w)
  | select (s : WMState) (w : Fin 16) : WMReach s → s.poolUsed w = true →
      WMReach (WM_SelectWindow s w)
  | sendBack (s : WMState) (w : Fin 16) : WMReach s → s.poolUsed w = true →
      WMReach (WM_SendToBack s w)

theorem wmInv_reach (s : WMState) (h : WMReach s) : WMInv s := by
  induction h with
  | init => exact wmInv_init
  | newW s bounds title style flags _ ih => exact wmInv_new s bounds title style flags ih
  | dispose s w _ hw ih => exact wmInv_dispose s w hw ih
  | select s w _ hw ih => exact wmInv_select s w hw ih
  | sendBack s w _ hw ih => exact wmInv_sendback s w hw ih

/-- A state satisfying `Zok s L` has fuelled walks that compute exactly
`L` (down) and `L.reverse` (up). -/
theorem zok_walks (s : WMState) (L : List (Fin 16)) (hzk : Zok s L) :
    walkDown s = L ∧ walkUp s = L.reverse := by
  obtain ⟨⟨h1, h2, h3, h4, h5, h6⟩, hmem⟩ := hzk
  have hlen : L.length ≤ 16 := by
    have := h6.length_le_card
    simpa using this
  constructor
  · unfold walkDown
    rw [h1]
    exact walkD_of_segD s L L.head? 16 (segD_of_chain s L h3 h5) hlen
  · unfold walkUp
    rw [h2]
    refine walkU_of_segU s L.reverse L.getLast? 16 (segU_of_chain s L h3 h4) ?_
    rw [List.length_reverse]
    exact hlen

/-- C2: after any sequence of `WM_NewWindow` / `WM_DisposeWindow` /
`WM_SelectWindow` / `WM_SendToBack` calls on live windows, the z-order
pointers are mutually consistent (if a window's `above` is `B` then
`B.below` points back, and symmetrically for `below`), and either there
are no windows at all (`topWindow` and `bottomWindow` both null, every
pool slot free) or the walk from `topWindow` via `below` visits exactly
the linked windows, each once, ends at `bottomWindow`, and the reverse
walk from `bottomWindow` via `above` visits the same windows in reverse
order. -/
theorem c2_theorem (s : WMState) (hs : WMReach s) :
    (∀ v b : Fin 16,
        ((s.pool v).above = some b → (s.pool b).below = some v) ∧
        ((s.pool v).below = some b → (s.pool b).above = some v)) ∧
    ((s.topWindow = none ∧ s.bottomWindow = none ∧ ∀ v, s.poolUsed v = false) ∨
      (walkDown s ≠ [] ∧ (walkDown s).Nodup ∧
        (∀ v, s.poolUsed v = true ↔ v ∈ walkDown s) ∧
        (walkDown s).head? = s.topWindow ∧
        (walkDown s).getLast? = s.bottomWindow ∧
        walkUp s = (walkDown s).reverse)) := by
  obtain ⟨hid, hcl, L, hzc, hmem⟩ := wmInv_reach s hs
  obtain ⟨hwd, hwu⟩ := zok_walks s L ⟨hzc, hmem⟩
  constructor
  · intro v b
    constructor
    · intro hab
      by_cases hv : s.poolUsed v = true
      · have hvL : v ∈ L := (hmem v).mp hv
        obtain ⟨A, B, hLdec, hwA, hwB, hdisj, hvab, hvbe, hlinkA, hlinkB⟩ :=
          zchain_neighbors s L v hzc hvL
        rw [hab] at hvab
        exact (hlinkA b hvab.symm).1
      · have hvf : s.poolUsed v = false := by
          cases hbv : s.poolUsed v
          · rfl
          · exact absurd hbv hv
        have hnone := (hcl v hvf).1
        rw [hnone] at hab
        exact absurd hab (by simp)
    · intro hbe
      by_cases hv : s.poolUsed v = true
      · have hvL : v ∈ L := (hmem v).mp hv
        obtain ⟨A, B, hLdec, hwA, hwB, hdisj, hvab, hvbe, hlinkA, hlinkB⟩ :=
          zchain_neighbors s L v hzc hvL
        rw [hbe] at hvbe
        exact (hlinkB b hvbe.symm).2
      · have hvf : s.poolUsed v = false := by
          cases hbv : s.poolUsed v
          · rfl
          · exact absurd hbv hv
        have hnone := (hcl v hvf).2
        rw [hnone] at hbe
        exact absurd hbe (by simp)
  · cases L with
    | nil =>
      left
      refine ⟨by simpa using hzc.1, by simpa using hzc.2.1, fun v => ?_⟩
      have h' := hmem v
      cases hbv : s.poolUsed v
      · rfl
      · rw [hbv] at h'
        have hx : v ∈ ([] : List (Fin 16)) := h'.mp rfl
        simp at hx
    | cons t L' =>
      right
      rw [hwd]
      exact ⟨by simp, hzc.2.2.2.2.2, hmem, hzc.1.symm, hzc.2.1.symm, hwu⟩

def c2s1 : WMState :=
  (WM_NewWindow WM_InitState ⟨10, 10, 100, 100⟩ none WM_STYLE_DOCUMENT WF_VISIBLE).2

def c2s2 : WMState :=
  (WM_NewWindow c2s1 ⟨50, 50, 200, 150⟩ none WM_STYLE_DOCUMENT WF_VISIBLE).2

def c2s3 : WMState := WM_SendToBack c2s2 1

/-- Witness for C2: two windows opened and the front one sent to back;
the state is reachable, the theorem applies, and the down-walk is
concretely `[0, 1]`. -/
theorem c2_witness :
    WMReach c2s3 ∧
    walkDown c2s3 = [0, 1] ∧
    ((∀ v b : Fin 16,
        ((c2s3.pool v).above = some b → (c2s3.pool b).below = some v) ∧
        ((c2s3.pool v).below = some b → (c2s3.pool b).above = some v)) ∧
     ((c2s3.topWindow = none ∧ c2s3.bottomWindow = none ∧
         ∀ v, c2s3.poolUsed v = false) ∨
      (walkDown c2s3 ≠ [] ∧ (walkDown c2s3).Nodup ∧
        (∀ v, c2s3.poolUsed v = true ↔ v ∈ walkDown c2s3) ∧
        (walkDown c2s3).head? = c2s3.topWindow ∧
        (walkDown c2s3).getLast? = c2s3.bottomWindow ∧
        walkUp c2s3 = (walkDown c2s3).reverse))) := by
  have h1 : WMReach c2s1 :=
    WMReach.newW WM_InitState ⟨10, 10, 100, 100⟩ none WM_STYLE_DOCUMENT WF_VISIBLE
      WMReach.init
  have h2 : WMReach c2s2 :=
    WMReach.newW c2s1 ⟨50, 50, 200, 150⟩ none WM_STYLE_DOCUMENT WF_VISIBLE h1
  have h3 : WMReach c2s3 := WMReach.sendBack c2s2 1 h2 (by decide)
  exact ⟨h3, by decide, c2_theorem c2s3 h3⟩

end SegaOS
